import Mathlib

/-!
Verification of the dLSM write-ingest / flush pipeline (TimberSaw / leveldb
derivative).  The definitions below are a shallow embedding of the C++
sources: `DBImpl::Write`, `DBImpl::PickupTableToWrite`,
`DBImpl::CompactMemTable`, `DBImpl::MaybeScheduleCompaction`,
`DBImpl::RecordBackgroundError`, `DBImpl::Get`, `DB::Open`,
`SanitizeOptions` (all from db_impl.cc) and `Block::Block` /
`Block::NewIterator` (table/block.cc).  Components whose sources are not
part of the sampled tree (MemTable internals, VersionSet counters) are
modelled from the specification and marked as such in their doc comments.
-/

namespace DLSM

/-- Status values, mirroring `leveldb::Status` (Ok plus the error codes
listed in the spec); each error carries its message. -/
inductive Status where
  | ok : Status
  | notFound : String → Status
  | corruption : String → Status
  | ioError : String → Status
  | invalidArgument : String → Status
  | notSupported : String → Status
deriving DecidableEq, Repr

/-- Embeds `Status::ok()`. -/
def Status.isOK : Status → Bool
  | Status.ok => true
  | _ => false

/-- MemTable flush states, from the `MemTable` flush-state machine
(`FLUSH_REQUESTED` is written by the rotator, `FLUSH_SCHEDULED` by the
flush worker in `CompactMemTable`). -/
inductive FlushState where
  | OPEN : FlushState
  | FLUSH_REQUESTED : FlushState
  | FLUSH_SCHEDULED : FlushState
  | FLUSHED : FlushState
deriving DecidableEq, Repr

/-- Internal value types (`kTypeDeletion` / `kTypeValue` of dbformat.h). -/
inductive ValueType where
  | kTypeDeletion : ValueType
  | kTypeValue : ValueType
deriving DecidableEq, Repr

/-- One internal entry: user key, sequence number, kind, value. -/
structure Entry where
  key : String
  seq : Nat
  vt : ValueType
  value : String
deriving DecidableEq, Repr

/-- Modelled from the spec: `MemTable` (db/memtable.h is not under src/;
only its callers in db_impl.cc are).  Per spec §3 a MemTable carries the
sequence window `[first_seq, largest_seq_supposed]`, the monotonic
`applied_kv_count` (here `kv_num`, increased by `increase_kv_num`), the
flush state, and the ordered map of entries (newest inserted first). -/
structure MemTable where
  first_seq : Nat
  largest_seq_supposed : Nat
  kv_num : Nat
  flush_state : FlushState
  entries : List Entry
deriving DecidableEq, Repr

/-- Embeds `new MemTable(internal_comparator_)`: a fresh, empty table; the window
is set afterwards through `SetFirstSeq` / `SetLargestSeq`. -/
def MemTable.fresh : MemTable :=
  { first_seq := 0, largest_seq_supposed := 0, kv_num := 0,
    flush_state := FlushState.OPEN, entries := [] }

/-- Embeds `MemTable::SetFirstSeq`. -/
def MemTable.setFirstSeq (t : MemTable) (s : Nat) : MemTable :=
  { t with first_seq := s }

/-- Embeds `MemTable::SetLargestSeq`. -/
def MemTable.setLargestSeq (t : MemTable) (s : Nat) : MemTable :=
  { t with largest_seq_supposed := s }

/-- Embeds `MemTable::SetFlushState`. -/
def MemTable.setFlushState (t : MemTable) (f : FlushState) : MemTable :=
  { t with flush_state := f }

/-- Embeds `MemTable::increase_kv_num`. -/
def MemTable.increaseKvNum (t : MemTable) (n : Nat) : MemTable :=
  { t with kv_num := t.kv_num + n }

/-- The number of sequence numbers reserved by the table's window. -/
def MemTable.windowSize (t : MemTable) : Nat :=
  t.largest_seq_supposed + 1 - t.first_seq

/-- Modelled from the spec: `MemTable::able_to_flush` (db/memtable.h is not
under src/).  Per spec §3, `able_to_flush` is true iff
`applied_kv_count == window_size`, i.e. every reserved seq has landed. -/
def MemTable.ableToFlush (t : MemTable) : Bool :=
  t.kv_num == t.windowSize

/-- Modelled from the spec: `WriteBatchInternal::InsertInto` into a
MemTable (db/write_batch.cc and the skip list are not under src/): adds the
batch's single entry to the ordered map. -/
def MemTable.add (t : MemTable) (e : Entry) : MemTable :=
  { t with entries := e :: t.entries }

/-- One step of the seek: a candidate entry replaces the accumulator when
it addresses the key, is visible at the snapshot, and carries a greater
sequence than the current best. -/
def lookupStep (k : String) (snapshot : Nat) (acc : Option Entry) (e : Entry) :
    Option Entry :=
  if e.key = k ∧ e.seq ≤ snapshot then
    match acc with
    | none => some e
    | some a => if a.seq < e.seq then some e else acc
  else acc

/-- Fold the seek over a list of entries from a given best-so-far. -/
def lookupFrom (k : String) (snapshot : Nat) (init : Option Entry)
    (es : List Entry) : Option Entry :=
  es.foldl (lookupStep k snapshot) init

/-- The lookup a skip-list seek performs: among the entries for `k` whose
sequence is at most `snapshot`, the one with the greatest sequence (the
internal-key order is ascending user key, then descending sequence, so that
entry is the first one the seek lands on). -/
def lookupEnts (k : String) (snapshot : Nat) (es : List Entry) : Option Entry :=
  lookupFrom k snapshot none es

/-- What a reader sees in a found entry: the value, or nothing for a
deletion tombstone. -/
def entryRead (e : Entry) : Option String :=
  match e.vt with
  | ValueType.kTypeDeletion => none
  | ValueType.kTypeValue => some e.value

/-- Modelled from the spec: `MemTable::Get` (db/memtable.h is not under
src/).  Per spec §4.2 it returns the first entry at `user_key` whose
sequence is ≤ the snapshot: `none` when the key is absent (the caller falls
through to the next level), `some none` when a deletion tombstone is found,
`some (some v)` when a value is found. -/
def MemTable.get (t : MemTable) (k : String) (snapshot : Nat) :
    Option (Option String) :=
  match lookupEnts k snapshot t.entries with
  | none => none
  | some e => some (entryRead e)

/-- The DBImpl state relevant to the write-ingest / flush pipeline:
the atomic pointers `mem_` and `imm_`, the sticky `bg_error_`, the
`shutting_down_` flag, the `manual_compaction_` slot, the flushed data
owned by the current Version, the Version counter bumped by
`VersionSet::LogAndApply`, and the sequence allocator of the VersionSet.
`needsCompaction` stands for the opaque call `versions_->NeedsCompaction()`
(version_set.h is not under src/). -/
structure DBState where
  mem : MemTable
  imm : Option MemTable
  bg_error : Status
  shutting_down : Bool
  manual_compaction : Bool
  needsCompaction : Bool
  nextSeq : Nat
  flushed : List Entry
  versionNumber : Nat
deriving DecidableEq, Repr

/-- Modelled from the spec: `VersionSet::AssignSequnceNumbers(kv_num)`
(db/version_set.h is not under src/).  Per spec §4.1, `reserve(n)` is an
atomic fetch-add returning the first sequence of a contiguous range of
size `n`. -/
def assignSequenceNumbers (st : DBState) (n : Nat) : DBState × Nat :=
  ({ st with nextSeq := st.nextSeq + n }, st.nextSeq)

/-- Embeds `DBImpl::RecordBackgroundError`: latches the first non-OK status into
`bg_error_`; once latched, later statuses do not replace it. -/
def recordBackgroundError (st : DBState) (s : Status) : DBState :=
  if st.bg_error.isOK then { st with bg_error := s } else st

/-- Embeds `DBImpl::MaybeScheduleCompaction`: returns `true` exactly when
`env_->Schedule(&DBImpl::BGWork, this)` is reached.  The original
`background_compaction_scheduled_ = true` assignment is commented out in
the source, so the call does not modify the DB state. -/
def maybeScheduleCompaction (st : DBState) : Bool :=
  if st.shutting_down then false
  else if ¬st.bg_error.isOK then false
  else if st.imm = none ∧ st.manual_compaction = false ∧
          st.needsCompaction = false then false
  else true

/-- Which table `PickupTableToWrite` hands back through `mem_r`. -/
inductive TableRef where
  | toMem : TableRef
  | toImm : TableRef
deriving DecidableEq, Repr

/-- Embeds `DBImpl::PickupTableToWrite` (the live, lock-free version), executed
sequentially.  `M` is the tunable `MEMTABLE_SEQ_SIZE`.  `none` models a
point where a single thread can make no further progress: the
`Memtable_full_cv.Wait()` when `imm_` is still occupied, and the paths the
source rules out by assertion (`assert(imm_.load() != nullptr)` in the
bottom search loop, and its window check failing on both tables).
A thread that wins the CAS installs the next window
`[largest+1, largest+MEMTABLE_SEQ_SIZE]`, parks the old table as `imm_`
in `FLUSH_REQUESTED` state, calls `MaybeScheduleCompaction`, and returns
the new table without rechecking the window. -/
def pickupTableToWrite (M : Nat) (st : DBState) (seq : Nat) :
    Option (DBState × TableRef) :=
  if seq > st.mem.largest_seq_supposed then
    match st.imm with
    | some _ => none
    | none =>
        let lastMemSeq := st.mem.largest_seq_supposed
        let tempMem := ((MemTable.fresh.setFirstSeq (lastMemSeq + 1)).setLargestSeq
          (lastMemSeq + M))
        let oldMem := st.mem.setFlushState FlushState.FLUSH_REQUESTED
        some ({ st with mem := tempMem, imm := some oldMem }, TableRef.toMem)
  else
    if st.mem.first_seq ≤ seq then some (st, TableRef.toMem)
    else
      match st.imm with
      | some im =>
          if im.first_seq ≤ seq ∧ seq ≤ im.largest_seq_supposed then
            some (st, TableRef.toImm)
          else none
      | none => none

/-- One write-batch operation (the source asserts `kv_num == 1`, so a batch
is a single put or delete). -/
inductive BatchOp where
  | put : String → String → BatchOp
  | del : String → BatchOp
deriving DecidableEq, Repr

/-- The entry a batch op contributes once `SetSequence` has stamped it. -/
def BatchOp.entry (op : BatchOp) (seq : Nat) : Entry :=
  match op with
  | BatchOp.put k v => { key := k, seq := seq, vt := ValueType.kTypeValue, value := v }
  | BatchOp.del k => { key := k, seq := seq, vt := ValueType.kTypeDeletion, value := "" }

/-- Insert the stamped batch into the table `PickupTableToWrite` chose and
bump that table's kv counter (`InsertInto` + `increase_kv_num`). -/
def insertIntoRef (st : DBState) (r : TableRef) (e : Entry) : DBState :=
  match r with
  | TableRef.toMem => { st with mem := (st.mem.add e).increaseKvNum 1 }
  | TableRef.toImm =>
      match st.imm with
      | some im => { st with imm := some ((im.add e).increaseKvNum 1) }
      | none => st

/-- Resolve the table a `TableRef` denotes in a given state. -/
def tableOf (st : DBState) : TableRef → MemTable
  | TableRef.toMem => st.mem
  | TableRef.toImm => st.imm.getD st.mem

/-- Embeds `DBImpl::Write` (the live version): reserve a sequence number through
the VersionSet allocator, pick the table, stamp the batch with the
sequence, insert it there, and bump the table's kv counter.  The status it
returns is the one `PickupTableToWrite` produced; `bg_error_` is never
consulted.  `none` models the blocked `Memtable_full_cv.Wait()`. -/
def dbWrite (M : Nat) (st : DBState) (op : BatchOp) :
    Option (DBState × Status) :=
  let (st1, sequence) := assignSequenceNumbers st 1
  match pickupTableToWrite M st1 sequence with
  | none => none
  | some (st2, r) => some (insertIntoRef st2 r (op.entry sequence), Status.ok)

/-- Embeds `DB::Put` builds a one-entry put batch and calls `Write`. -/
def dbPut (M : Nat) (st : DBState) (k v : String) : Option (DBState × Status) :=
  dbWrite M st (BatchOp.put k v)

/-- Embeds `DB::Delete` builds a one-entry delete batch and calls `Write`. -/
def dbDelete (M : Nat) (st : DBState) (k : String) : Option (DBState × Status) :=
  dbWrite M st (BatchOp.del k)

/-- Embeds `DBImpl::CompactMemTable`, with the outcomes of the two external
collaborators as parameters: `buildStatus` is what
`WriteLevel0Table`/`BuildTable` returns and `applyStatus` what
`VersionSet::LogAndApply` returns.  `none` models the paths on which the
worker cannot proceed sequentially: the `assert(imm != nullptr)` and the
busy-wait `while(!imm->able_to_flush)`.  Once the wait is over the worker
sets `FLUSH_SCHEDULED`, builds the level-0 table, turns a success into
`IOError("Deleting DB during memtable compaction")` if `shutting_down_` is
observed, applies the version edit on success (publishing a new Version
and clearing `imm_`), and otherwise latches the error via
`RecordBackgroundError`. -/
def compactMemTable (st : DBState) (buildStatus : Status)
    (shutdownObserved : Bool) (applyStatus : Status) : Option DBState :=
  match st.imm with
  | none => none
  | some im =>
      if ¬im.ableToFlush then none
      else
        let im1 := im.setFlushState FlushState.FLUSH_SCHEDULED
        let st1 := { st with imm := some im1 }
        let s := buildStatus
        let s := if s.isOK ∧ shutdownObserved then
            Status.ioError "Deleting DB during memtable compaction"
          else s
        let s := if s.isOK then applyStatus else s
        if s.isOK then
          some { st1 with
                 imm := none,
                 flushed := st1.flushed ++ im1.entries,
                 versionNumber := st1.versionNumber + 1 }
        else
          some (recordBackgroundError st1 s)

/-- The state `CompactMemTable` leaves behind when the flush fails (or
shutdown is observed): the immutable table stays parked, in
`FLUSH_SCHEDULED` state. -/
def flushParked (st : DBState) (im : MemTable) : DBState :=
  { st with imm := some (im.setFlushState FlushState.FLUSH_SCHEDULED) }

/-- The state `CompactMemTable` leaves behind when the flush succeeds: the
version edit is applied (a new Version is published holding the table's
data) and `imm_` is cleared. -/
def flushApplied (st : DBState) (im : MemTable) : DBState :=
  { st with
    imm := none,
    flushed := st.flushed ++ (im.setFlushState FlushState.FLUSH_SCHEDULED).entries,
    versionNumber := st.versionNumber + 1 }

/-- Embeds `DBImpl::BackgroundCall` followed by `BackgroundCompaction`: skip all
work when shutting down or after a background error; otherwise flush
`imm_` if there is one (everything else in `BackgroundCompaction` is
commented out in the source). -/
def backgroundCall (st : DBState) (buildStatus : Status)
    (shutdownObserved : Bool) (applyStatus : Status) : Option DBState :=
  if st.shutting_down then some st
  else if ¬st.bg_error.isOK then some st
  else if st.imm = none then some st
  else compactMemTable st buildStatus shutdownObserved applyStatus

/-- Modelled from the spec: `Version::Get` over the flushed data
(db/version_set.cc is not under src/): the same newest-visible-entry lookup
applied to what the level-0 flushes have published. -/
def versionGet (flushed : List Entry) (k : String) (snapshot : Nat) :
    Option String :=
  match lookupEnts k snapshot flushed with
  | none => none
  | some e => entryRead e

/-- Embeds `DBImpl::Get`: resolve the snapshot, then look in `mem_`, fall through
to `imm_`, then to the current Version's data; a deletion tombstone or a
miss everywhere is `NotFound` (`none`). -/
def dbGet (st : DBState) (k : String) (snapshot : Nat) : Option String :=
  match st.mem.get k snapshot with
  | some r => r
  | none =>
      match st.imm with
      | some im =>
          match im.get k snapshot with
          | some r => r
          | none => versionGet st.flushed k snapshot
      | none => versionGet st.flushed k snapshot

/-- Embeds `DB::Open` on a fresh database: `Recover` produced `recoverStatus` and
recovered no memtable, so when the status is OK the engine creates a new
MemTable and gives it the window `[0, MEMTABLE_SEQ_SIZE-1]` via
`SetFirstSeq(0)` / `SetLargestSeq(MEMTABLE_SEQ_SIZE-1)`; on error no handle
is returned. -/
def dbOpenFresh (M : Nat) (recoverStatus : Status) : Option DBState :=
  if recoverStatus.isOK then
    let mem := ((MemTable.fresh.setFirstSeq 0).setLargestSeq (M - 1))
    some { mem := mem, imm := none, bg_error := Status.ok,
           shutting_down := false, manual_compaction := false,
           needsCompaction := false, nextSeq := 0, flushed := [],
           versionNumber := 0 }
  else none

/-! ### Option sanitization (`SanitizeOptions` of db_impl.cc) -/

/-- The numeric fields of `Options` that `SanitizeOptions` clips
(`max_open_files` is a C++ `int`, hence `Int`; the three sizes are
`size_t`, hence `Nat`). -/
structure Options where
  max_open_files : Int
  write_buffer_size : Nat
  max_file_size : Nat
  block_size : Nat
deriving DecidableEq, Repr

/-- Evaluates `static_cast<int>` of a `size_t` value: the low 32 bits read
as a two's-complement signed integer (the behaviour of the narrowing
conversion on the targeted LP64 platforms, where `int` is 32 bits wide and
`size_t` 64). -/
def toInt32 (v : Nat) : Int :=
  if v % 4294967296 < 2147483648 then ((v % 4294967296 : Nat) : Int)
  else ((v % 4294967296 : Nat) : Int) - 4294967296

/-- Embeds `ClipToRange` at a `size_t`-typed field.  `V` is deduced as
`int` from the literal bounds, so the two sequential ifs of the source
compare `static_cast<V>(*ptr)` — the value narrowed to 32 bits — against
the bounds, while an assignment stores the (non-negative) `int` bound back
into the `size_t` field. -/
def clipToRange (v : Nat) (lo hi : Int) : Nat :=
  let v1 := if toInt32 v > hi then hi.toNat else v
  if toInt32 v1 < lo then lo.toNat else v1

/-- Embeds `ClipToRange` at the `int`-typed field `max_open_files`. -/
def clipToRangeInt (v lo hi : Int) : Int :=
  let v1 := if v > hi then hi else v
  if v1 < lo then lo else v1

/-- Constant `kNumNonTableCacheFiles = 10` (db_impl.cc). -/
def kNumNonTableCacheFiles : Int := 10

/-- The numeric part of `SanitizeOptions`: clip `max_open_files` to
`[64 + kNumNonTableCacheFiles, 50000]`, `write_buffer_size` to
`[64<<10, 1<<30]`, `max_file_size` to `[1<<20, 1<<30]` and `block_size` to
`[1<<10, 4<<20]`. -/
def sanitizeOptions (src : Options) : Options :=
  { max_open_files := clipToRangeInt src.max_open_files (64 + kNumNonTableCacheFiles) 50000,
    write_buffer_size := clipToRange src.write_buffer_size (64 <<< 10) (1 <<< 30),
    max_file_size := clipToRange src.max_file_size (1 <<< 20) (1 <<< 30),
    block_size := clipToRange src.block_size (1 <<< 10) (4 <<< 20) }

/-! ### Block decoding (`Block::Block` / `Block::NewIterator`,
table/block.cc) -/

/-- Embeds `DecodeFixed32`: little-endian 32-bit decode of four bytes. -/
def decodeFixed32 (b0 b1 b2 b3 : Nat) : Nat :=
  b0 % 256 + (b1 % 256) * 256 + (b2 % 256) * 65536 + (b3 % 256) * 16777216

/-- Embeds `Block::NumRestarts()`: decode the fixed32 stored in the last four
bytes of the block contents. -/
def numRestartsOf (data : List Nat) : Nat :=
  let n := data.length
  decodeFixed32 (data.getD (n - 4) 0) (data.getD (n - 3) 0)
    (data.getD (n - 2) 0) (data.getD (n - 1) 0)

/-- The state the `Block` constructor leaves behind: the contents, the
possibly-zeroed `size_`, and `restart_offset_`. -/
structure Block where
  data : List Nat
  size_ : Nat
  restart_offset_ : Nat
deriving DecidableEq, Repr

/-- Embeds `Block::Block(contents, type)`: mark the block bad (`size_ = 0`) when
the contents are shorter than four bytes or the trailing restart count
does not fit in `(size - 4) / 4`; otherwise compute
`restart_offset_ = size - (1 + NumRestarts()) * 4`. -/
def blockCtor (contents : List Nat) : Block :=
  let size := contents.length
  if size < 4 then
    { data := contents, size_ := 0, restart_offset_ := 0 }
  else
    let maxRestartsAllowed := (size - 4) / 4
    if numRestartsOf contents > maxRestartsAllowed then
      { data := contents, size_ := 0, restart_offset_ := 0 }
    else
      { data := contents, size_ := size,
        restart_offset_ := size - (1 + numRestartsOf contents) * 4 }

/-- What `Block::NewIterator` returns: an error iterator carrying a
status, the canned empty iterator, or a real block iterator. -/
inductive BlockIter where
  | errorIterator : Status → BlockIter
  | emptyIterator : BlockIter
  | iter : (restartOffset : Nat) → (numRestarts : Nat) → BlockIter
deriving DecidableEq, Repr

/-- Embeds `Block::NewIterator`: an error iterator with
`Status::Corruption("bad block contents")` when `size_ < 4`, the empty
iterator when the restart count is zero, and a real iterator otherwise. -/
def blockNewIterator (b : Block) : BlockIter :=
  if b.size_ < 4 then
    BlockIter.errorIterator (Status.corruption "bad block contents")
  else
    let numRestarts := numRestartsOf b.data
    if numRestarts = 0 then BlockIter.emptyIterator
    else BlockIter.iter b.restart_offset_ numRestarts

/-! ### Sequential executions of the engine -/

/-- The state `DB::Open` hands back for a fresh database (the `some` payload
of `dbOpenFresh M Status.ok`). -/
def openState (M : Nat) : DBState :=
  { mem := (MemTable.fresh.setFirstSeq 0).setLargestSeq (M - 1),
    imm := none, bg_error := Status.ok, shutting_down := false,
    manual_compaction := false, needsCompaction := false, nextSeq := 0,
    flushed := [], versionNumber := 0 }

/-- One event of a sequential execution: a client write entering
`DBImpl::Write`, or the scheduled background worker running
`BackgroundCall` (with the outcomes of the table build and the version-edit
apply as parameters). -/
inductive Op where
  | write : BatchOp → Op
  | flush : Status → Bool → Status → Op
deriving DecidableEq, Repr

/-- Run one event.  `none` means the event cannot complete sequentially
(a writer parked on `Memtable_full_cv`, or the flush worker spinning on
`able_to_flush`). -/
def stepOp (M : Nat) (st : DBState) : Op → Option DBState
  | Op.write b => (dbWrite M st b).map (fun p => p.1)
  | Op.flush buildStatus sh applyStatus =>
      backgroundCall st buildStatus sh applyStatus

/-- Run a sequence of events from a state. -/
def applyOps (M : Nat) (st : DBState) : List Op → Option DBState
  | [] => some st
  | o :: rest =>
      match stepOp M st o with
      | none => none
      | some st' => applyOps M st' rest

/-- The user key a batch op addresses. -/
def BatchOp.key : BatchOp → String
  | BatchOp.put k _ => k
  | BatchOp.del k => k

/-- What a read at or after a batch op's sequence should see: the put
value, or nothing for a delete tombstone. -/
def BatchOp.readResult : BatchOp → Option String
  | BatchOp.put _ v => some v
  | BatchOp.del _ => none

/-- The sequence number the allocator hands the `i`-th event of a run that
starts at sequence `c`: each write consumes one sequence number, flushes
none. -/
def seqAt (c : Nat) : List Op → Nat → Nat
  | [], _ => c
  | Op.write _ :: rest, i + 1 => seqAt (c + 1) rest i
  | Op.flush _ _ _ :: rest, i + 1 => seqAt c rest i
  | _, 0 => c

/-- The reference read semantics over a chronological event list: scan the
events in order (the counter `c` is the next sequence to assign), and let
the last write to key `k` whose sequence is at most `snapshot` overwrite
the running answer. -/
def runGet (k : String) (snapshot : Nat) : List Op → Nat → Option String →
    Option String
  | [], _, fallback => fallback
  | Op.write b :: rest, c, fallback =>
      runGet k snapshot rest (c + 1)
        (if b.key = k ∧ c ≤ snapshot then b.readResult else fallback)
  | Op.flush _ _ _ :: rest, c, fallback => runGet k snapshot rest c fallback

/-- The lowest sequence the in-memory tables may still hold; everything in
the flushed (Version-owned) data lies strictly below it. -/
def bandBottom (st : DBState) : Nat :=
  match st.imm with
  | some im => im.first_seq
  | none => st.mem.first_seq

/-- The state invariant of sequential executions: the mutable window is an
aligned `MEMTABLE_SEQ_SIZE`-sized block, the allocator never runs past the
window's end, every table holds exactly the entries of its window below
the allocator, the kv counters track the entry counts, the parked
immutable table (when present) is the full predecessor window, the
flushed data sits strictly below both tables, and a latched background
error implies the immutable table is still parked (the only latch site,
a failed flush, keeps it). -/
structure Inv (M : Nat) (st : DBState) : Prop where
  mem_win : st.mem.largest_seq_supposed + 1 = st.mem.first_seq + M
  mem_align : M ∣ st.mem.first_seq
  next_ub : st.nextSeq ≤ st.mem.largest_seq_supposed + 1
  next_lb : st.mem.first_seq ≤ st.nextSeq
  mem_ents : ∀ e ∈ st.mem.entries, st.mem.first_seq ≤ e.seq ∧ e.seq < st.nextSeq
  mem_len : st.mem.entries.length = st.nextSeq - st.mem.first_seq
  mem_kv : st.mem.kv_num = st.mem.entries.length
  mem_open : st.mem.flush_state = FlushState.OPEN
  imm_win : ∀ im ∈ st.imm, im.largest_seq_supposed + 1 = st.mem.first_seq
  imm_size : ∀ im ∈ st.imm, im.largest_seq_supposed + 1 = im.first_seq + M
  imm_ents : ∀ im ∈ st.imm, ∀ e ∈ im.entries,
    im.first_seq ≤ e.seq ∧ e.seq ≤ im.largest_seq_supposed
  imm_len : ∀ im ∈ st.imm, im.entries.length = M
  imm_kv : ∀ im ∈ st.imm, im.kv_num = im.entries.length
  flushed_lo : ∀ e ∈ st.flushed, e.seq < bandBottom st
  err_imm : st.bg_error.isOK = false → st.imm ≠ none

/-! ### Lemmas about the seek fold -/

theorem lookupFrom_nil (k : String) (s : Nat) (init : Option Entry) :
    lookupFrom k s init [] = init := rfl

theorem lookupFrom_cons (k : String) (s : Nat) (init : Option Entry)
    (e : Entry) (es : List Entry) :
    lookupFrom k s init (e :: es) = lookupFrom k s (lookupStep k s init e) es := rfl

theorem lookupFrom_append (k : String) (s : Nat) (init : Option Entry)
    (A B : List Entry) :
    lookupFrom k s init (A ++ B) = lookupFrom k s (lookupFrom k s init A) B := by
  simp [lookupFrom, List.foldl_append]

/-- A fold that starts from a candidate never comes back empty. -/
theorem lookupFrom_isSome (k : String) (s : Nat) (a : Entry)
    (es : List Entry) : (lookupFrom k s (some a) es).isSome := by
  induction es generalizing a with
  | nil => rfl
  | cons e es ih =>
      rw [lookupFrom_cons]
      unfold lookupStep
      by_cases h : e.key = k ∧ e.seq ≤ s
      · simp only [if_pos h]
        by_cases h2 : a.seq < e.seq
        · simp only [if_pos h2]; exact ih e
        · simp only [if_neg h2]; exact ih a
      · simp only [if_neg h]; exact ih a

/-- What the fold returns is either an element of the list or the initial
candidate. -/
theorem lookupFrom_mem (k : String) (s : Nat) (init : Option Entry)
    (es : List Entry) (e : Entry) (h : lookupFrom k s init es = some e) :
    e ∈ es ∨ init = some e := by
  induction es generalizing init with
  | nil => exact Or.inr h
  | cons f es ih =>
      rw [lookupFrom_cons] at h
      rcases ih _ h with hmem | hinit
      · exact Or.inl (List.mem_cons_of_mem _ hmem)
      · unfold lookupStep at hinit
        by_cases hf : f.key = k ∧ f.seq ≤ s
        · simp only [if_pos hf] at hinit
          cases init with
          | none =>
              cases hinit
              exact Or.inl (List.mem_cons_self _ _)
          | some a =>
              by_cases h2 : a.seq < f.seq
              · simp only [if_pos h2] at hinit
                cases hinit
                exact Or.inl (List.mem_cons_self _ _)
              · simp only [if_neg h2] at hinit
                exact Or.inr hinit
        · simp only [if_neg hf] at hinit
          exact Or.inr hinit

/-- A candidate at least as high as everything in the list survives the
fold. -/
theorem lookupFrom_stuck (k : String) (s : Nat) (e : Entry)
    (es : List Entry) (h : ∀ f ∈ es, f.seq ≤ e.seq) :
    lookupFrom k s (some e) es = some e := by
  induction es with
  | nil => rfl
  | cons f es ih =>
      rw [lookupFrom_cons]
      have hf : f.seq ≤ e.seq := h f (List.mem_cons_self _ _)
      have hstep : lookupStep k s (some e) f = some e := by
        unfold lookupStep
        by_cases hm : f.key = k ∧ f.seq ≤ s
        · simp only [if_pos hm]
          have : ¬e.seq < f.seq := not_lt.mpr hf
          simp [this]
        · simp only [if_neg hm]
      rw [hstep]
      exact ih (fun g hg => h g (List.mem_cons_of_mem _ hg))

/-- Folding over entries that all sit strictly above the initial candidate
yields the list's own best match when there is one, and the candidate
otherwise. -/
theorem lookupFrom_init_below (k : String) (s : Nat) (init : Option Entry)
    (es : List Entry) (h : ∀ a, init = some a → ∀ e ∈ es, a.seq < e.seq) :
    lookupFrom k s init es =
      match lookupEnts k s es with
      | none => init
      | some r => some r := by
  induction es generalizing init with
  | nil => simp [lookupEnts, lookupFrom_nil]
  | cons e es ih =>
      rw [lookupEnts, lookupFrom_cons, lookupFrom_cons]
      by_cases hm : e.key = k ∧ e.seq ≤ s
      · have hstep : lookupStep k s init e = some e := by
          unfold lookupStep
          simp only [if_pos hm]
          cases init with
          | none => rfl
          | some a =>
              have : a.seq < e.seq := h a rfl e (List.mem_cons_self _ _)
              simp [this]
        have hstep0 : lookupStep k s none e = some e := by
          unfold lookupStep
          simp only [if_pos hm]
        rw [hstep, hstep0]
        have hsome := lookupFrom_isSome k s e es
        cases hsm : lookupFrom k s (some e) es with
        | none => rw [hsm] at hsome; cases hsome
        | some r => rfl
      · have hstep : lookupStep k s init e = init := by
          unfold lookupStep; simp only [if_neg hm]
        have hstep0 : lookupStep k s none e = none := by
          unfold lookupStep; simp only [if_neg hm]
        rw [hstep, hstep0]
        exact ih init (fun a ha f hf => h a ha f (List.mem_cons_of_mem _ hf))

/-- A hit of the fold either is the initial candidate or actually matches
the key and the snapshot. -/
theorem lookupFrom_matches (k : String) (s : Nat) (init : Option Entry)
    (es : List Entry) (e : Entry) (h : lookupFrom k s init es = some e) :
    init = some e ∨ (e.key = k ∧ e.seq ≤ s) := by
  induction es generalizing init with
  | nil => exact Or.inl h
  | cons f es ih =>
      rw [lookupFrom_cons] at h
      rcases ih _ h with hinit | hm
      · unfold lookupStep at hinit
        by_cases hf : f.key = k ∧ f.seq ≤ s
        · simp only [if_pos hf] at hinit
          cases init with
          | none => cases hinit; exact Or.inr hf
          | some a =>
              by_cases h2 : a.seq < f.seq
              · simp only [if_pos h2] at hinit; cases hinit; exact Or.inr hf
              · simp only [if_neg h2] at hinit; exact Or.inl hinit
        · simp only [if_neg hf] at hinit
          exact Or.inl hinit
      · exact Or.inr hm

/-- Every hit of the plain lookup matches the key and the snapshot. -/
theorem lookupEnts_matches (k : String) (s : Nat) (es : List Entry)
    (e : Entry) (h : lookupEnts k s es = some e) :
    e.key = k ∧ e.seq ≤ s := by
  rcases lookupFrom_matches k s none es e h with hinit | hm
  · cases hinit
  · exact hm

/-! ### Characterizing a sequential `Write` -/

theorem entry_key (op : BatchOp) (s : Nat) : (op.entry s).key = op.key := by
  cases op <;> rfl

theorem entry_seq (op : BatchOp) (s : Nat) : (op.entry s).seq = s := by
  cases op <;> rfl

theorem entryRead_entry (op : BatchOp) (s : Nat) :
    entryRead (op.entry s) = op.readResult := by
  cases op <;> rfl

/-- Under `first_seq ≤ nextSeq`, a sequential `Write` either appends to the
mutable table (room left in the window), parks on the condition variable
(window exhausted but `imm_` still busy), or rotates and inserts into the
freshly installed table. -/
theorem dbWrite_eq (M : Nat) (st : DBState) (op : BatchOp)
    (hfle : st.mem.first_seq ≤ st.nextSeq) :
    dbWrite M st op =
      if st.nextSeq ≤ st.mem.largest_seq_supposed then
        some ({ st with
                nextSeq := st.nextSeq + 1,
                mem := (st.mem.add (op.entry st.nextSeq)).increaseKvNum 1 },
              Status.ok)
      else
        match st.imm with
        | some _ => none
        | none =>
            some ({ st with
                    nextSeq := st.nextSeq + 1,
                    mem := ((((MemTable.fresh.setFirstSeq
                        (st.mem.largest_seq_supposed + 1)).setLargestSeq
                        (st.mem.largest_seq_supposed + M)).add
                        (op.entry st.nextSeq)).increaseKvNum 1),
                    imm := some (st.mem.setFlushState
                        FlushState.FLUSH_REQUESTED) },
                  Status.ok) := by
  by_cases hle : st.nextSeq ≤ st.mem.largest_seq_supposed
  · have hgt : ¬st.mem.largest_seq_supposed < st.nextSeq := not_lt.mpr hle
    simp [dbWrite, assignSequenceNumbers, pickupTableToWrite, insertIntoRef,
      hgt, hle, hfle]
  · have hgt : st.mem.largest_seq_supposed < st.nextSeq := lt_of_not_le hle
    cases him : st.imm with
    | some im =>
        simp [dbWrite, assignSequenceNumbers, pickupTableToWrite, him, hgt, hle]
    | none =>
        simp [dbWrite, assignSequenceNumbers, pickupTableToWrite,
          insertIntoRef, him, hgt, hle]

theorem inv_openState (M : Nat) (hM : 1 ≤ M) : Inv M (openState M) := by
  constructor <;>
    simp [openState, MemTable.fresh, MemTable.setFirstSeq,
      MemTable.setLargestSeq, bandBottom, Status.isOK] <;> omega

/-- A completed sequential `Write` preserves the state invariant, always
returns OK, and advances the allocator by one. -/
theorem inv_write (M : Nat) (st : DBState) (op : BatchOp) (st' : DBState)
    (s : Status) (hM : 1 ≤ M) (hInv : Inv M st)
    (h : dbWrite M st op = some (st', s)) :
    Inv M st' ∧ s = Status.ok ∧ st'.nextSeq = st.nextSeq + 1 := by
  rw [dbWrite_eq M st op hInv.next_lb] at h
  by_cases hle : st.nextSeq ≤ st.mem.largest_seq_supposed
  · rw [if_pos hle] at h
    cases h
    refine ⟨?_, rfl, rfl⟩
    constructor
    · exact hInv.mem_win
    · exact hInv.mem_align
    · simp only [MemTable.add, MemTable.increaseKvNum]; omega
    · exact le_trans hInv.next_lb (Nat.le_succ _)
    ·
      intro e he
      simp only [MemTable.add, MemTable.increaseKvNum, List.mem_cons] at he
      rcases he with rfl | hmem
      · exact ⟨by simpa [entry_seq] using hInv.next_lb, by simp [entry_seq]⟩
      · rcases hInv.mem_ents e hmem with ⟨h1, h2⟩
        exact ⟨h1, Nat.lt_succ_of_lt h2⟩
    ·
      have h1 := hInv.mem_len
      have h2 := hInv.next_lb
      simp only [MemTable.add, MemTable.increaseKvNum, List.length_cons]
      omega
    ·
      have := hInv.mem_kv
      simp only [MemTable.add, MemTable.increaseKvNum, List.length_cons]
      omega
    · exact hInv.mem_open
    · exact hInv.imm_win
    · exact hInv.imm_size
    · exact hInv.imm_ents
    · exact hInv.imm_len
    · exact hInv.imm_kv
    ·
      intro e he
      have := hInv.flushed_lo e he
      simpa [bandBottom] using this
    · intro hf
      exact hInv.err_imm hf
  · rw [if_neg hle] at h
    cases him : st.imm with
    | some im => rw [him] at h; cases h
    | none =>
        rw [him] at h
        cases h
        have hnext : st.nextSeq = st.mem.largest_seq_supposed + 1 := by
          have := hInv.next_ub
          omega
        refine ⟨?_, rfl, rfl⟩
        have hwin := hInv.mem_win
        constructor
        ·
          simp only [MemTable.add, MemTable.increaseKvNum, MemTable.fresh,
            MemTable.setFirstSeq, MemTable.setLargestSeq]
          omega
        ·
          simp only [MemTable.add, MemTable.increaseKvNum, MemTable.fresh,
            MemTable.setFirstSeq, MemTable.setLargestSeq]
          rw [show st.mem.largest_seq_supposed + 1 = st.mem.first_seq + M
            from hwin]
          exact dvd_add hInv.mem_align (dvd_refl M)
        ·
          simp only [MemTable.add, MemTable.increaseKvNum, MemTable.fresh,
            MemTable.setFirstSeq, MemTable.setLargestSeq]
          omega
        ·
          simp only [MemTable.add, MemTable.increaseKvNum, MemTable.fresh,
            MemTable.setFirstSeq, MemTable.setLargestSeq]
          omega
        ·
          intro e he
          simp only [MemTable.add, MemTable.increaseKvNum, MemTable.fresh,
            MemTable.setFirstSeq, MemTable.setLargestSeq, List.mem_cons,
            List.not_mem_nil, or_false] at he
          subst he
          simp only [MemTable.add, MemTable.increaseKvNum, MemTable.fresh,
            MemTable.setFirstSeq, MemTable.setLargestSeq, entry_seq]
          omega
        ·
          simp only [MemTable.add, MemTable.increaseKvNum, MemTable.fresh,
            MemTable.setFirstSeq, MemTable.setLargestSeq, List.length_cons,
            List.length_nil]
          omega
        ·
          simp [MemTable.add, MemTable.increaseKvNum, MemTable.fresh,
            MemTable.setFirstSeq, MemTable.setLargestSeq]
        ·
          simp [MemTable.add, MemTable.increaseKvNum, MemTable.fresh,
            MemTable.setFirstSeq, MemTable.setLargestSeq]
        ·
          intro im him2
          simp only [Option.mem_def, Option.some.injEq] at him2
          subst him2
          simp [MemTable.setFlushState, MemTable.add, MemTable.increaseKvNum,
            MemTable.fresh, MemTable.setFirstSeq, MemTable.setLargestSeq]
        ·
          intro im him2
          simp only [Option.mem_def, Option.some.injEq] at him2
          subst him2
          simpa [MemTable.setFlushState] using hwin
        ·
          intro im him2 e he
          simp only [Option.mem_def, Option.some.injEq] at him2
          subst him2
          simp only [MemTable.setFlushState] at he ⊢
          rcases hInv.mem_ents e he with ⟨h1, h2⟩
          exact ⟨h1, by omega⟩
        ·
          intro im him2
          simp only [Option.mem_def, Option.some.injEq] at him2
          subst him2
          have := hInv.mem_len
          simp only [MemTable.setFlushState]
          omega
        ·
          intro im him2
          simp only [Option.mem_def, Option.some.injEq] at him2
          subst him2
          simpa [MemTable.setFlushState] using hInv.mem_kv
        ·
          intro e he
          have := hInv.flushed_lo e he
          simp only [bandBottom, him] at this
          simpa [bandBottom, MemTable.setFlushState] using this
        · intro hf
          simp

/-! ### How one write changes the read view -/

theorem memGet_add_hit (t : MemTable) (e : Entry) (k : String) (snap : Nat)
    (hm : e.key = k ∧ e.seq ≤ snap) (hhi : ∀ f ∈ t.entries, f.seq ≤ e.seq) :
    ((t.add e).increaseKvNum 1).get k snap = some (entryRead e) := by
  have hstep : lookupStep k snap none e = some e := by
    unfold lookupStep; simp only [if_pos hm]
  unfold MemTable.get
  simp only [MemTable.add, MemTable.increaseKvNum]
  rw [show lookupEnts k snap (e :: t.entries)
      = lookupFrom k snap (lookupStep k snap none e) t.entries from rfl,
    hstep, lookupFrom_stuck k snap e t.entries hhi]

theorem memGet_add_miss (t : MemTable) (e : Entry) (k : String) (snap : Nat)
    (hm : ¬(e.key = k ∧ e.seq ≤ snap)) :
    ((t.add e).increaseKvNum 1).get k snap = t.get k snap := by
  have hstep : lookupStep k snap none e = none := by
    unfold lookupStep; simp only [if_neg hm]
  unfold MemTable.get
  simp only [MemTable.add, MemTable.increaseKvNum]
  rw [show lookupEnts k snap (e :: t.entries)
      = lookupFrom k snap (lookupStep k snap none e) t.entries from rfl,
    hstep]
  rfl

/-- After a completed `Write`, a read sees the new entry at snapshots at or
past its sequence, and is otherwise undisturbed. -/
theorem get_write (M : Nat) (st : DBState) (op : BatchOp) (st' : DBState)
    (s : Status) (hInv : Inv M st) (h : dbWrite M st op = some (st', s))
    (k : String) (snap : Nat) :
    dbGet st' k snap =
      if op.key = k ∧ st.nextSeq ≤ snap then op.readResult
      else dbGet st k snap := by
  rw [dbWrite_eq M st op hInv.next_lb] at h
  by_cases hle : st.nextSeq ≤ st.mem.largest_seq_supposed
  · rw [if_pos hle] at h
    cases h
    by_cases hm : op.key = k ∧ st.nextSeq ≤ snap
    · rw [if_pos hm]
      have hm' : (op.entry st.nextSeq).key = k ∧ (op.entry st.nextSeq).seq ≤ snap := by
        simpa [entry_key, entry_seq] using hm
      have hhi : ∀ f ∈ st.mem.entries, f.seq ≤ (op.entry st.nextSeq).seq := by
        intro f hf
        have := (hInv.mem_ents f hf).2
        simp only [entry_seq]
        omega
      unfold dbGet
      rw [memGet_add_hit st.mem (op.entry st.nextSeq) k snap hm' hhi]
      simp [entryRead_entry]
    · rw [if_neg hm]
      have hm' : ¬((op.entry st.nextSeq).key = k ∧ (op.entry st.nextSeq).seq ≤ snap) := by
        simpa [entry_key, entry_seq] using hm
      unfold dbGet
      rw [memGet_add_miss st.mem (op.entry st.nextSeq) k snap hm']
  · rw [if_neg hle] at h
    cases him : st.imm with
    | some im => rw [him] at h; cases h
    | none =>
        rw [him] at h
        cases h
        have hmemget : ∀ t : MemTable, t.entries = [] →
            t.get k snap = none := by
          intro t ht
          unfold MemTable.get
          rw [ht]
          rfl
        by_cases hm : op.key = k ∧ st.nextSeq ≤ snap
        · rw [if_pos hm]
          have hm' : (op.entry st.nextSeq).key = k ∧ (op.entry st.nextSeq).seq ≤ snap := by
            simpa [entry_key, entry_seq] using hm
          unfold dbGet
          rw [memGet_add_hit _ (op.entry st.nextSeq) k snap hm'
            (by
              intro f hf
              simp [MemTable.fresh, MemTable.setFirstSeq,
                MemTable.setLargestSeq] at hf)]
          simp [entryRead_entry]
        · rw [if_neg hm]
          have hm' : ¬((op.entry st.nextSeq).key = k ∧ (op.entry st.nextSeq).seq ≤ snap) := by
            simpa [entry_key, entry_seq] using hm
          unfold dbGet
          rw [memGet_add_miss _ (op.entry st.nextSeq) k snap hm']
          rw [hmemget _ (by
            simp [MemTable.fresh, MemTable.setFirstSeq, MemTable.setLargestSeq])]
          simp only [MemTable.setFlushState, MemTable.get, him]

/-! ### How a background flush changes the state -/

theorem recordBackgroundError_mem (st : DBState) (s : Status) :
    (recordBackgroundError st s).mem = st.mem := by
  unfold recordBackgroundError; split <;> rfl

theorem recordBackgroundError_imm (st : DBState) (s : Status) :
    (recordBackgroundError st s).imm = st.imm := by
  unfold recordBackgroundError; split <;> rfl

theorem recordBackgroundError_flushed (st : DBState) (s : Status) :
    (recordBackgroundError st s).flushed = st.flushed := by
  unfold recordBackgroundError; split <;> rfl

theorem recordBackgroundError_nextSeq (st : DBState) (s : Status) :
    (recordBackgroundError st s).nextSeq = st.nextSeq := by
  unfold recordBackgroundError; split <;> rfl

/-- Reads over the flushed data absorb a freshly flushed batch that sits
strictly above them: looking the combined list up is the same as looking
the new batch up first and falling back to the older flushed data. -/
theorem versionGet_absorb (flushed B : List Entry) (k : String) (snap : Nat)
    (hband : ∀ a ∈ flushed, ∀ e ∈ B, a.seq < e.seq) :
    versionGet (flushed ++ B) k snap =
      match lookupEnts k snap B with
      | some e => entryRead e
      | none => versionGet flushed k snap := by
  unfold versionGet
  rw [show lookupEnts k snap (flushed ++ B)
      = lookupFrom k snap (lookupEnts k snap flushed) B
    from lookupFrom_append k snap none flushed B]
  rw [lookupFrom_init_below k snap (lookupEnts k snap flushed) B
    (by
      intro a ha e he
      rcases lookupFrom_mem k snap none flushed a ha with hmem | hnone
      · exact hband a hmem e he
      · cases hnone)]
  cases lookupEnts k snap B <;> rfl

theorem isOK_ioError (m : String) : (Status.ioError m).isOK = false := rfl

theorem isOK_ok : Status.ok.isOK = true := rfl

/-- Whenever `CompactMemTable` completes sequentially, `imm_` held a table
that had passed the `able_to_flush` barrier, and the call either applied
the version edit and cleared `imm_`, or latched an error and kept the
parked table. -/
theorem compactMemTable_shape (st : DBState) (b : Status) (sh : Bool)
    (a : Status) (st' : DBState) (h : compactMemTable st b sh a = some st') :
    ∃ im, st.imm = some im ∧ im.ableToFlush = true ∧
      (st' = flushApplied st im ∨
        ∃ s, st' = recordBackgroundError (flushParked st im) s) := by
  unfold compactMemTable at h
  cases him : st.imm with
  | none => rw [him] at h; cases h
  | some im =>
      rw [him] at h
      simp only at h
      by_cases hf : im.ableToFlush = true
      · rw [if_neg (by simpa using hf)] at h
        refine ⟨im, rfl, hf, ?_⟩
        by_cases hb : b.isOK = true
        · by_cases hsh : sh = true
          · simp [hb, hsh, isOK_ioError] at h
            subst h
            exact Or.inr ⟨_, rfl⟩
          · by_cases ha : a.isOK = true
            · simp [hb, hsh, ha, isOK_ioError] at h
              subst h
              exact Or.inl rfl
            · simp [hb, hsh, ha, isOK_ioError] at h
              subst h
              exact Or.inr ⟨_, rfl⟩
        · simp [hb, isOK_ioError] at h
          subst h
          exact Or.inr ⟨_, rfl⟩
      · rw [if_pos (by simpa using hf)] at h
        cases h

/-- A successfully applied flush preserves the invariant, leaves the
allocator alone, and does not change what any read returns. -/
theorem flushApplied_step (M : Nat) (st : DBState) (im : MemTable)
    (hM : 1 ≤ M) (hInv : Inv M st) (him : st.imm = some im)
    (hok : st.bg_error.isOK = true) :
    Inv M (flushApplied st im) ∧ (flushApplied st im).nextSeq = st.nextSeq ∧
    ∀ k snap, dbGet (flushApplied st im) k snap = dbGet st k snap := by
  have himmem : im ∈ st.imm := by simp [him]
  have hwin1 := hInv.imm_win im himmem
  have hwin2 := hInv.imm_size im himmem
  have hband : ∀ a2 ∈ st.flushed, ∀ e ∈ im.entries, a2.seq < e.seq := by
    intro a2 ha2 e he
    have h1 := hInv.flushed_lo a2 ha2
    simp only [bandBottom, him] at h1
    have h2 := (hInv.imm_ents im himmem e he).1
    omega
  refine ⟨?_, rfl, ?_⟩
  · constructor
    · exact hInv.mem_win
    · exact hInv.mem_align
    · exact hInv.next_ub
    · exact hInv.next_lb
    · exact hInv.mem_ents
    · exact hInv.mem_len
    · exact hInv.mem_kv
    · exact hInv.mem_open
    · intro im2 him2; cases him2
    · intro im2 him2; cases him2
    · intro im2 him2 e he; cases him2
    · intro im2 him2; cases him2
    · intro im2 him2; cases him2
    · intro e he
      simp only [flushApplied, MemTable.setFlushState, List.mem_append] at he
      simp only [flushApplied, bandBottom]
      rcases he with hfl | hin
      · have := hInv.flushed_lo e hfl
        simp only [bandBottom, him] at this
        omega
      · have := (hInv.imm_ents im himmem e hin).2
        omega
    · intro hf
      rw [show (flushApplied st im).bg_error = st.bg_error from rfl, hok] at hf
      simp at hf
  · intro k snap
    have habs := versionGet_absorb st.flushed im.entries k snap hband
    cases hg : st.mem.get k snap with
    | some r =>
        simp only [dbGet, flushApplied, MemTable.setFlushState, hg]
    | none =>
        simp only [dbGet, flushApplied, MemTable.setFlushState, hg, him, habs,
          MemTable.get]
        cases lookupEnts k snap im.entries <;> rfl

/-- A failed flush latches the error but otherwise preserves the
invariant, the allocator position, and every read. -/
theorem flushParked_step (M : Nat) (st : DBState) (im : MemTable)
    (s : Status) (hM : 1 ≤ M) (hInv : Inv M st) (him : st.imm = some im) :
    Inv M (recordBackgroundError (flushParked st im) s) ∧
    (recordBackgroundError (flushParked st im) s).nextSeq = st.nextSeq ∧
    ∀ k snap,
      dbGet (recordBackgroundError (flushParked st im) s) k snap =
        dbGet st k snap := by
  have himmem : im ∈ st.imm := by simp [him]
  have hwin1 := hInv.imm_win im himmem
  have hwin2 := hInv.imm_size im himmem
  refine ⟨?_, by rw [recordBackgroundError_nextSeq]; rfl, ?_⟩
  · constructor
    · rw [recordBackgroundError_mem]; exact hInv.mem_win
    · rw [recordBackgroundError_mem]; exact hInv.mem_align
    · rw [recordBackgroundError_mem, recordBackgroundError_nextSeq]
      exact hInv.next_ub
    · rw [recordBackgroundError_mem, recordBackgroundError_nextSeq]
      exact hInv.next_lb
    · rw [recordBackgroundError_mem, recordBackgroundError_nextSeq]
      exact hInv.mem_ents
    · rw [recordBackgroundError_mem, recordBackgroundError_nextSeq]
      exact hInv.mem_len
    · rw [recordBackgroundError_mem]; exact hInv.mem_kv
    · rw [recordBackgroundError_mem]; exact hInv.mem_open
    · intro im2 him2
      rw [recordBackgroundError_mem]
      rw [recordBackgroundError_imm] at him2
      simp only [flushParked, Option.mem_def, Option.some.injEq] at him2
      subst him2
      simpa [MemTable.setFlushState] using hwin1
    · intro im2 him2
      rw [recordBackgroundError_imm] at him2
      simp only [flushParked, Option.mem_def, Option.some.injEq] at him2
      subst him2
      simpa [MemTable.setFlushState] using hwin2
    · intro im2 him2 e he
      rw [recordBackgroundError_imm] at him2
      simp only [flushParked, Option.mem_def, Option.some.injEq] at him2
      subst him2
      simp only [MemTable.setFlushState] at he ⊢
      exact hInv.imm_ents im himmem e he
    · intro im2 him2
      rw [recordBackgroundError_imm] at him2
      simp only [flushParked, Option.mem_def, Option.some.injEq] at him2
      subst him2
      simpa [MemTable.setFlushState] using hInv.imm_len im himmem
    · intro im2 him2
      rw [recordBackgroundError_imm] at him2
      simp only [flushParked, Option.mem_def, Option.some.injEq] at him2
      subst him2
      simpa [MemTable.setFlushState] using hInv.imm_kv im himmem
    · intro e he
      rw [recordBackgroundError_flushed] at he
      simp only [flushParked] at he
      have := hInv.flushed_lo e he
      simp only [bandBottom, him] at this
      simp only [bandBottom, recordBackgroundError_imm, flushParked,
        MemTable.setFlushState]
      exact this
    · intro hf
      rw [recordBackgroundError_imm]
      simp [flushParked]
  · intro k snap
    cases hg : st.mem.get k snap with
    | some r =>
        simp only [dbGet, recordBackgroundError_mem, recordBackgroundError_imm,
          recordBackgroundError_flushed, flushParked, MemTable.setFlushState,
          hg]
    | none =>
        simp only [dbGet, recordBackgroundError_mem, recordBackgroundError_imm,
          recordBackgroundError_flushed, flushParked, MemTable.setFlushState,
          hg, him, MemTable.get]

/-- A completed `BackgroundCall` (including a failing or shut-down flush)
preserves the invariant, leaves the allocator alone, and does not change
what any read returns. -/
theorem flush_step (M : Nat) (st : DBState) (b : Status) (sh : Bool)
    (a : Status) (st' : DBState) (hM : 1 ≤ M) (hInv : Inv M st)
    (h : backgroundCall st b sh a = some st') :
    Inv M st' ∧ st'.nextSeq = st.nextSeq ∧
    ∀ k snap, dbGet st' k snap = dbGet st k snap := by
  unfold backgroundCall at h
  by_cases hsd : st.shutting_down
  · rw [if_pos hsd] at h; cases h; exact ⟨hInv, rfl, fun _ _ => rfl⟩
  · rw [if_neg hsd] at h
    by_cases hbe : ¬st.bg_error.isOK
    · rw [if_pos hbe] at h; cases h; exact ⟨hInv, rfl, fun _ _ => rfl⟩
    · rw [if_neg hbe] at h
      by_cases hni : st.imm = none
      · rw [if_pos hni] at h; cases h; exact ⟨hInv, rfl, fun _ _ => rfl⟩
      · rw [if_neg hni] at h
        obtain ⟨im, him, hf, hcase⟩ := compactMemTable_shape st b sh a st' h
        rcases hcase with rfl | ⟨s2, rfl⟩
        · exact flushApplied_step M st im hM hInv him (not_not.mp hbe)
        · exact flushParked_step M st im s2 hM hInv him
/-! ### Soundness of whole sequential executions -/

/-- Running any sequence of events from an invariant state keeps the
invariant, and the final read view is the reference (history-based) read
semantics applied to the events. -/
theorem applyOps_sound (M : Nat) (hM : 1 ≤ M) :
    ∀ (ops : List Op) (st st' : DBState), Inv M st →
      applyOps M st ops = some st' →
      Inv M st' ∧
      ∀ k snap, dbGet st' k snap =
        runGet k snap ops st.nextSeq (dbGet st k snap) := by
  intro ops
  induction ops with
  | nil =>
      intro st st' hInv h
      cases h
      exact ⟨hInv, fun _ _ => rfl⟩
  | cons o rest ih =>
      intro st st' hInv h
      unfold applyOps at h
      cases ho : stepOp M st o with
      | none => rw [ho] at h; cases h
      | some st1 =>
          rw [ho] at h
          simp only at h
          cases o with
          | write b =>
              unfold stepOp at ho
              simp only at ho
              cases hw : dbWrite M st b with
              | none => rw [hw] at ho; cases ho
              | some p =>
                  rw [hw] at ho
                  simp only [Option.map, Option.some.injEq] at ho
                  subst ho
                  obtain ⟨hInv1, _, hnext⟩ :=
                    inv_write M st b p.1 p.2 hM hInv (by rw [hw])
                  obtain ⟨hInv', hget'⟩ := ih p.1 st' hInv1 h
                  refine ⟨hInv', ?_⟩
                  intro k snap
                  rw [hget' k snap, hnext,
                    get_write M st b p.1 p.2 hInv (by rw [hw]) k snap]
                  simp only [runGet]
          | flush bs sh as2 =>
              unfold stepOp at ho
              simp only at ho
              obtain ⟨hInv1, hnext, hget1⟩ :=
                flush_step M st bs sh as2 st1 hM hInv ho
              obtain ⟨hInv', hget'⟩ := ih st1 st' hInv1 h
              refine ⟨hInv', ?_⟩
              intro k snap
              rw [hget' k snap, hnext, hget1 k snap]
              simp only [runGet]

/-- The read view of the state `DB::Open` creates for a fresh database is
empty. -/
theorem dbGet_openState (M : Nat) (k : String) (snap : Nat) :
    dbGet (openState M) k snap = none := rfl

/-- Any sequential run from a freshly opened database keeps the invariant
and reads exactly per the reference semantics. -/
theorem run_sound (M : Nat) (ops : List Op) (st : DBState) (hM : 1 ≤ M)
    (h : applyOps M (openState M) ops = some st) :
    Inv M st ∧ ∀ k snap, dbGet st k snap = runGet k snap ops 0 none := by
  obtain ⟨hInv, hget⟩ :=
    applyOps_sound M hM ops (openState M) st (inv_openState M hM) h
  refine ⟨hInv, ?_⟩
  intro k snap
  rw [hget k snap, dbGet_openState]
  rfl

/-! ### The reference read semantics, point-wise -/

theorem seqAt_zero (c : Nat) (o : Op) (rest : List Op) :
    seqAt c (o :: rest) 0 = c := by cases o <;> rfl

theorem seqAt_succ_write (c : Nat) (b : BatchOp) (rest : List Op) (i : Nat) :
    seqAt c (Op.write b :: rest) (i + 1) = seqAt (c + 1) rest i := rfl

theorem seqAt_succ_flush (c : Nat) (bs : Status) (sh : Bool) (a2 : Status)
    (rest : List Op) (i : Nat) :
    seqAt c (Op.flush bs sh a2 :: rest) (i + 1) = seqAt c rest i := rfl

/-- If every write to `k` in the events has a sequence beyond the
snapshot, the running answer survives. -/
theorem runGet_pres (k : String) (snap : Nat) :
    ∀ (ops : List Op) (c : Nat) (fb : Option String),
      (∀ j b, ops.get? j = some (Op.write b) → b.key = k →
        snap < seqAt c ops j) →
      runGet k snap ops c fb = fb := by
  intro ops
  induction ops with
  | nil => intro c fb _; rfl
  | cons o rest ih =>
      intro c fb h
      cases o with
      | write b =>
          unfold runGet
          have hcond : ¬(b.key = k ∧ c ≤ snap) := by
            rintro ⟨hk, hc⟩
            have := h 0 b (by simp) hk
            rw [seqAt_zero] at this
            omega
          rw [if_neg hcond]
          exact ih (c + 1) fb (fun j b2 hj hk => by
            have := h (j + 1) b2 (by simpa using hj) hk
            rwa [seqAt_succ_write] at this)
      | flush bs sh a2 =>
          unfold runGet
          exact ih c fb (fun j b2 hj hk => by
            have := h (j + 1) b2 (by simpa using hj) hk
            rwa [seqAt_succ_flush] at this)

/-- If no event ever writes to `k`, the running answer survives. -/
theorem runGet_absent (k : String) (snap : Nat) :
    ∀ (ops : List Op) (c : Nat) (fb : Option String),
      (∀ j b, ops.get? j = some (Op.write b) → b.key ≠ k) →
      runGet k snap ops c fb = fb := by
  intro ops
  induction ops with
  | nil => intro c fb _; rfl
  | cons o rest ih =>
      intro c fb h
      cases o with
      | write b =>
          unfold runGet
          have hcond : ¬(b.key = k ∧ c ≤ snap) := by
            rintro ⟨hk, _⟩
            exact h 0 b (by simp) hk
          rw [if_neg hcond]
          exact ih (c + 1) fb (fun j b2 hj => h (j + 1) b2 (by simpa using hj))
      | flush bs sh a2 =>
          unfold runGet
          exact ih c fb (fun j b2 hj => h (j + 1) b2 (by simpa using hj))

/-- A put whose sequence is visible at the snapshot and is not superseded
by any later visible write to the same key decides the answer. -/
theorem runGet_hit (k v : String) (snap : Nat) :
    ∀ (ops : List Op) (i c : Nat) (fb : Option String),
      ops.get? i = some (Op.write (BatchOp.put k v)) →
      seqAt c ops i ≤ snap →
      (∀ j, i < j → ∀ b, ops.get? j = some (Op.write b) → b.key = k →
        snap < seqAt c ops j) →
      runGet k snap ops c fb = some v := by
  intro ops
  induction ops with
  | nil => intro i c fb hi _ _; cases hi
  | cons o rest ih =>
      intro i c fb hi hsnap hlater
      cases i with
      | zero =>
          rw [List.get?_cons_zero, Option.some.injEq] at hi
          subst hi
          rw [seqAt_zero] at hsnap
          unfold runGet
          rw [if_pos ⟨rfl, hsnap⟩]
          exact runGet_pres k snap rest (c + 1) _ (fun j b hj hk => by
            have := hlater (j + 1) (Nat.succ_pos _) b (by simpa using hj) hk
            rwa [seqAt_succ_write] at this)
      | succ i2 =>
          cases o with
          | write b =>
              unfold runGet
              exact ih i2 (c + 1) _ (by simpa using hi)
                (by rwa [seqAt_succ_write] at hsnap)
                (fun j hj b2 hb2 hk => by
                  have := hlater (j + 1) (Nat.succ_lt_succ hj) b2
                    (by simpa using hb2) hk
                  rwa [seqAt_succ_write] at this)
          | flush bs sh a2 =>
              unfold runGet
              exact ih i2 c fb (by simpa using hi)
                (by rwa [seqAt_succ_flush] at hsnap)
                (fun j hj b2 hb2 hk => by
                  have := hlater (j + 1) (Nat.succ_lt_succ hj) b2
                    (by simpa using hb2) hk
                  rwa [seqAt_succ_flush] at this)

/-! ### The claims -/

/-- C2: for every write of key `k` that returned Ok and was assigned
sequence `s`, a subsequent get of `k` with a snapshot sequence ≥ `s`
returns the value of that write, until a later accepted write (put or
delete) to `k` with a larger sequence supersedes it; a get of a key never
written returns NotFound.  (Writes in a completed sequential run all
return Ok — see `inv_write`; the `i`-th event's assigned sequence is
`seqAt 0 ops i`.) -/
theorem dlsm_C2_read_follows_writes (M : Nat) (ops : List Op) (st : DBState)
    (k v : String) (snap i : Nat) (hM : 1 ≤ M)
    (hrun : applyOps M (openState M) ops = some st) :
    (ops.get? i = some (Op.write (BatchOp.put k v)) →
      seqAt 0 ops i ≤ snap →
      (∀ j, i < j → ∀ b, ops.get? j = some (Op.write b) → b.key = k →
        snap < seqAt 0 ops j) →
      dbGet st k snap = some v) ∧
    ((∀ j b, ops.get? j = some (Op.write b) → b.key ≠ k) →
      dbGet st k snap = none) := by
  obtain ⟨-, hget⟩ := run_sound M ops st hM hrun
  constructor
  · intro hi hsnap hlater
    rw [hget k snap]
    exact runGet_hit k v snap ops i 0 none hi hsnap hlater
  · intro habs
    rw [hget k snap]
    exact runGet_absent k snap ops 0 none habs

/-- C2 witness: a one-put run read back at its own sequence, and a read of
a key never written. -/
theorem dlsm_C2_read_follows_writes_witness :
    dbGet ((applyOps 2 (openState 2)
        [Op.write (BatchOp.put "a" "1")]).getD (openState 2)) "a" 0
      = some "1" ∧
    dbGet ((applyOps 2 (openState 2)
        [Op.write (BatchOp.put "a" "1")]).getD (openState 2)) "z" 0
      = none := by
  have h1 := dlsm_C2_read_follows_writes 2 [Op.write (BatchOp.put "a" "1")]
    ((applyOps 2 (openState 2) [Op.write (BatchOp.put "a" "1")]).getD
      (openState 2)) "a" "1" 0 0 (by decide) (by decide)
  have h2 := dlsm_C2_read_follows_writes 2 [Op.write (BatchOp.put "a" "1")]
    ((applyOps 2 (openState 2) [Op.write (BatchOp.put "a" "1")]).getD
      (openState 2)) "z" "1" 0 0 (by decide) (by decide)
  refine ⟨h1.1 (by decide) (by decide) ?_, h2.2 ?_⟩
  · intro j hj b hb hk
    cases j with
    | zero => omega
    | succ n => cases n <;> simp [List.get?] at hb
  · intro j b hb
    cases j with
    | zero =>
        simp [List.get?] at hb
        subst hb
        decide
    | succ n => cases n <;> simp [List.get?] at hb

/-- C3: for every pair of successive MemTables installed by rotation, the
new table's window starts one past the old table's
`largest_seq_supposed` and spans exactly `MEMTABLE_SEQ_SIZE` sequence
numbers (`largest = first + MEMTABLE_SEQ_SIZE - 1`), so the windows of
successive MemTables are contiguous and non-overlapping in every reachable
state of every run. -/
theorem dlsm_C3_window_contiguity (M : Nat) (ops : List Op) (st : DBState)
    (hM : 1 ≤ M) (hrun : applyOps M (openState M) ops = some st) :
    st.mem.largest_seq_supposed + 1 = st.mem.first_seq + M ∧
    (∀ im ∈ st.imm,
      im.largest_seq_supposed + 1 = im.first_seq + M ∧
      st.mem.first_seq = im.largest_seq_supposed + 1 ∧
      im.largest_seq_supposed < st.mem.first_seq) := by
  obtain ⟨hInv, -⟩ := run_sound M ops st hM hrun
  refine ⟨hInv.mem_win, ?_⟩
  intro im him
  have h1 := hInv.imm_win im him
  have h2 := hInv.imm_size im him
  exact ⟨h2, h1.symm, by omega⟩

/-- C3 witness: a run that rotates once (window size 2, three puts). -/
theorem dlsm_C3_window_contiguity_witness :
    (((applyOps 2 (openState 2)
        [Op.write (BatchOp.put "a" "1"), Op.write (BatchOp.put "b" "2"),
          Op.write (BatchOp.put "c" "3")]).getD
      (openState 2)).mem.largest_seq_supposed + 1
      = ((applyOps 2 (openState 2)
        [Op.write (BatchOp.put "a" "1"), Op.write (BatchOp.put "b" "2"),
          Op.write (BatchOp.put "c" "3")]).getD
      (openState 2)).mem.first_seq + 2) := by
  exact (dlsm_C3_window_contiguity 2
    [Op.write (BatchOp.put "a" "1"), Op.write (BatchOp.put "b" "2"),
      Op.write (BatchOp.put "c" "3")]
    ((applyOps 2 (openState 2)
      [Op.write (BatchOp.put "a" "1"), Op.write (BatchOp.put "b" "2"),
        Op.write (BatchOp.put "c" "3")]).getD (openState 2))
    (by decide) (by decide)).1

/-- C4: in every reachable state, every entry of the mutable and of the
immutable MemTable lies inside that table's sequence window (the insert
only happens under `first_seq ≤ s ≤ largest_seq_supposed`), and the table
`PickupTableToWrite` hands the next writer back has a window containing
that writer's reserved sequence. -/
theorem dlsm_C4_write_into_window (M : Nat) (ops : List Op) (st : DBState)
    (hM : 1 ≤ M) (hrun : applyOps M (openState M) ops = some st) :
    (∀ e ∈ st.mem.entries,
      st.mem.first_seq ≤ e.seq ∧ e.seq ≤ st.mem.largest_seq_supposed) ∧
    (∀ im ∈ st.imm, ∀ e ∈ im.entries,
      im.first_seq ≤ e.seq ∧ e.seq ≤ im.largest_seq_supposed) ∧
    (∀ st2 r, pickupTableToWrite M { st with nextSeq := st.nextSeq + 1 }
        st.nextSeq = some (st2, r) →
      (tableOf st2 r).first_seq ≤ st.nextSeq ∧
      st.nextSeq ≤ (tableOf st2 r).largest_seq_supposed) := by
  obtain ⟨hInv, -⟩ := run_sound M ops st hM hrun
  refine ⟨?_, hInv.imm_ents, ?_⟩
  · intro e he
    have h1 := hInv.mem_ents e he
    have h2 := hInv.next_ub
    exact ⟨h1.1, by omega⟩
  · intro st2 r h
    unfold pickupTableToWrite at h
    by_cases hle : st.nextSeq ≤ st.mem.largest_seq_supposed
    · rw [if_neg (by simpa using not_lt.mpr hle)] at h
      rw [if_pos (by simpa using hInv.next_lb)] at h
      cases h
      exact ⟨hInv.next_lb, hle⟩
    · have hgt : st.mem.largest_seq_supposed < st.nextSeq := lt_of_not_le hle
      have hnext : st.nextSeq = st.mem.largest_seq_supposed + 1 := by
        have := hInv.next_ub
        omega
      rw [if_pos (by simpa using hgt)] at h
      cases him : st.imm with
      | some im => rw [him] at h; cases h
      | none =>
          rw [him] at h
          simp only at h
          cases h
          constructor
          · simp [tableOf, MemTable.fresh, MemTable.setFirstSeq,
              MemTable.setLargestSeq]
            omega
          · simp [tableOf, MemTable.fresh, MemTable.setFirstSeq,
              MemTable.setLargestSeq]
            omega

/-- C4 witness: after a fresh open, the first write's sequence 0 is routed
to the initial table, whose window contains it. -/
theorem dlsm_C4_write_into_window_witness :
    (tableOf { openState 2 with nextSeq := 1 } TableRef.toMem).first_seq ≤ 0 ∧
    0 ≤ (tableOf { openState 2 with nextSeq := 1 }
        TableRef.toMem).largest_seq_supposed :=
  (dlsm_C4_write_into_window 2 [] (openState 2) (by decide) (by decide)).2.2
    { openState 2 with nextSeq := 1 } TableRef.toMem (by decide)

/-- C5: a MemTable is never advanced past `FlushRequested` while its
applied kv count is below its window size: whenever `CompactMemTable`
proceeds (the only writer of `FLUSH_SCHEDULED`), the immutable table had
passed the `able_to_flush` barrier, i.e. its applied kv count equals its
window size; and if the table is still parked afterwards it is in
`FLUSH_SCHEDULED` state with the count still equal to the window size. -/
theorem dlsm_C5_flush_barrier (st : DBState) (b : Status) (sh : Bool)
    (a : Status) (st' : DBState) (im : MemTable) (him : st.imm = some im)
    (h : compactMemTable st b sh a = some st') :
    im.ableToFlush = true ∧ im.kv_num = im.windowSize ∧
    (st'.imm = none ∨
      st'.imm = some (im.setFlushState FlushState.FLUSH_SCHEDULED)) := by
  obtain ⟨im2, him2, hable, hcase⟩ := compactMemTable_shape st b sh a st' h
  rw [him] at him2
  cases him2
  have hkv : im.kv_num = im.windowSize := by
    have h2 := hable
    unfold MemTable.ableToFlush at h2
    simpa using h2
  refine ⟨hable, hkv, ?_⟩
  rcases hcase with rfl | ⟨s2, rfl⟩
  · exact Or.inl rfl
  · rw [recordBackgroundError_imm]
    exact Or.inr rfl

/-- C5 witness: flushing a full one-entry table (window `[0,0]`, one
applied kv). -/
theorem dlsm_C5_flush_barrier_witness :
    (MemTable.mk 0 0 1 FlushState.FLUSH_REQUESTED
        [Entry.mk "a" 0 ValueType.kTypeValue "1"]).ableToFlush = true ∧
    (MemTable.mk 0 0 1 FlushState.FLUSH_REQUESTED
        [Entry.mk "a" 0 ValueType.kTypeValue "1"]).kv_num
      = (MemTable.mk 0 0 1 FlushState.FLUSH_REQUESTED
        [Entry.mk "a" 0 ValueType.kTypeValue "1"]).windowSize ∧
    ((DBState.mk ((MemTable.fresh.setFirstSeq 1).setLargestSeq 1)
        none Status.ok false false false 1
        [Entry.mk "a" 0 ValueType.kTypeValue "1"] 1).imm = none ∨
      (DBState.mk ((MemTable.fresh.setFirstSeq 1).setLargestSeq 1)
        none Status.ok false false false 1
        [Entry.mk "a" 0 ValueType.kTypeValue "1"] 1).imm
        = some ((MemTable.mk 0 0 1 FlushState.FLUSH_REQUESTED
          [Entry.mk "a" 0 ValueType.kTypeValue "1"]).setFlushState
            FlushState.FLUSH_SCHEDULED)) :=
  dlsm_C5_flush_barrier
    (DBState.mk ((MemTable.fresh.setFirstSeq 1).setLargestSeq 1)
      (some (MemTable.mk 0 0 1 FlushState.FLUSH_REQUESTED
        [Entry.mk "a" 0 ValueType.kTypeValue "1"]))
      Status.ok false false false 1 [] 0)
    Status.ok false Status.ok
    (DBState.mk ((MemTable.fresh.setFirstSeq 1).setLargestSeq 1)
      none Status.ok false false false 1
      [Entry.mk "a" 0 ValueType.kTypeValue "1"] 1)
    (MemTable.mk 0 0 1 FlushState.FLUSH_REQUESTED
      [Entry.mk "a" 0 ValueType.kTypeValue "1"])
    (by decide) (by decide)

/-- C6 counterexample: a state in which nothing is waiting to flush and no
manual compaction is pending — so the claim says `MaybeScheduleCompaction`
is a no-op — but `versions_->NeedsCompaction()` holds, and the code
schedules background work. -/
theorem dlsm_C6_counterexample :
    maybeScheduleCompaction
        (DBState.mk MemTable.fresh none Status.ok false false true 0 [] 0)
      = true ∧
    (DBState.mk MemTable.fresh none Status.ok false false true 0 [] 0).shutting_down
      = false ∧
    (DBState.mk MemTable.fresh none Status.ok false false true 0 [] 0).bg_error
      = Status.ok ∧
    (DBState.mk MemTable.fresh none Status.ok false false true 0 [] 0).imm
      = none ∧
    (DBState.mk MemTable.fresh none Status.ok false false true 0 [] 0).manual_compaction
      = false := by
  decide

/-- C6 (amended): `MaybeScheduleCompaction` is a no-op exactly when
shutdown has been requested, or a background error is latched, or there is
nothing to flush, no manual compaction is pending **and the version set
does not need a compaction**; the call never modifies the engine state
(the `background_compaction_scheduled_` assignment is commented out), so
repeating it in the same state behaves identically. -/
theorem dlsm_C6_amended (st : DBState) :
    maybeScheduleCompaction st = false ↔
      (st.shutting_down = true ∨ st.bg_error.isOK = false ∨
        (st.imm = none ∧ st.manual_compaction = false ∧
          st.needsCompaction = false)) := by
  unfold maybeScheduleCompaction
  by_cases h1 : st.shutting_down
  · simp [h1]
  · rw [if_neg h1]
    by_cases h2 : st.bg_error.isOK
    · rw [if_neg (by simpa using h2)]
      by_cases h3 : st.imm = none ∧ st.manual_compaction = false ∧
          st.needsCompaction = false
      · rw [if_pos h3]
        simp [h1, h2, h3]
      · rw [if_neg h3]
        constructor
        · intro hfalse; exact Bool.noConfusion hfalse
        · intro hor
          rcases hor with hs | he | hc
          · exact absurd hs h1
          · exact absurd h2 (by simp [he])
          · exact absurd hc h3
    · rw [if_pos (by simpa using h2)]
      simp [h2]

/-- C7: if the `shutting_down` flag is observed during a memtable flush,
`CompactMemTable` surfaces `IOError("Deleting DB during memtable
compaction")`, latches it via `RecordBackgroundError`, and does not
advance the state machine: `imm_` keeps the immutable table and no new
Version is published. -/
theorem dlsm_C7_shutdown_flush_error (st st' : DBState) (im : MemTable)
    (a : Status) (him : st.imm = some im) (hable : im.ableToFlush = true)
    (hclean : st.bg_error = Status.ok)
    (h : compactMemTable st Status.ok true a = some st') :
    st'.bg_error =
      Status.ioError "Deleting DB during memtable compaction" ∧
    st'.imm = some (im.setFlushState FlushState.FLUSH_SCHEDULED) ∧
    st'.flushed = st.flushed ∧
    st'.versionNumber = st.versionNumber := by
  have hX : compactMemTable st Status.ok true a
      = some (recordBackgroundError (flushParked st im)
        (Status.ioError "Deleting DB during memtable compaction")) := by
    unfold compactMemTable
    rw [him]
    simp only
    rw [if_neg (by simpa using hable)]
    simp [isOK_ok, isOK_ioError, flushParked]
  rw [hX, Option.some.injEq] at h
  subst h
  refine ⟨?_, ?_, ?_, ?_⟩
  · unfold recordBackgroundError flushParked
    simp [hclean, isOK_ok]
  · rw [recordBackgroundError_imm]
    rfl
  · rw [recordBackgroundError_flushed]
    rfl
  · unfold recordBackgroundError flushParked
    split <;> rfl

/-- C7 witness: shutdown observed while flushing a full one-entry table. -/
theorem dlsm_C7_shutdown_flush_error_witness :
    ((compactMemTable
        (DBState.mk ((MemTable.fresh.setFirstSeq 1).setLargestSeq 1)
          (some (MemTable.mk 0 0 1 FlushState.FLUSH_REQUESTED
            [Entry.mk "a" 0 ValueType.kTypeValue "1"]))
          Status.ok true false false 1 [] 0) Status.ok true
        Status.ok).getD (openState 2)).bg_error =
      Status.ioError "Deleting DB during memtable compaction" ∧
    ((compactMemTable
        (DBState.mk ((MemTable.fresh.setFirstSeq 1).setLargestSeq 1)
          (some (MemTable.mk 0 0 1 FlushState.FLUSH_REQUESTED
            [Entry.mk "a" 0 ValueType.kTypeValue "1"]))
          Status.ok true false false 1 [] 0) Status.ok true
        Status.ok).getD (openState 2)).imm
      = some ((MemTable.mk 0 0 1 FlushState.FLUSH_REQUESTED
        [Entry.mk "a" 0 ValueType.kTypeValue "1"]).setFlushState
          FlushState.FLUSH_SCHEDULED) ∧
    ((compactMemTable
        (DBState.mk ((MemTable.fresh.setFirstSeq 1).setLargestSeq 1)
          (some (MemTable.mk 0 0 1 FlushState.FLUSH_REQUESTED
            [Entry.mk "a" 0 ValueType.kTypeValue "1"]))
          Status.ok true false false 1 [] 0) Status.ok true
        Status.ok).getD (openState 2)).flushed = ([] : List Entry) ∧
    ((compactMemTable
        (DBState.mk ((MemTable.fresh.setFirstSeq 1).setLargestSeq 1)
          (some (MemTable.mk 0 0 1 FlushState.FLUSH_REQUESTED
            [Entry.mk "a" 0 ValueType.kTypeValue "1"]))
          Status.ok true false false 1 [] 0) Status.ok true
        Status.ok).getD (openState 2)).versionNumber = 0 := by
  have h := dlsm_C7_shutdown_flush_error
    (DBState.mk ((MemTable.fresh.setFirstSeq 1).setLargestSeq 1)
      (some (MemTable.mk 0 0 1 FlushState.FLUSH_REQUESTED
        [Entry.mk "a" 0 ValueType.kTypeValue "1"]))
      Status.ok true false false 1 [] 0)
    ((compactMemTable
      (DBState.mk ((MemTable.fresh.setFirstSeq 1).setLargestSeq 1)
        (some (MemTable.mk 0 0 1 FlushState.FLUSH_REQUESTED
          [Entry.mk "a" 0 ValueType.kTypeValue "1"]))
        Status.ok true false false 1 [] 0) Status.ok true
      Status.ok).getD (openState 2))
    (MemTable.mk 0 0 1 FlushState.FLUSH_REQUESTED
      [Entry.mk "a" 0 ValueType.kTypeValue "1"])
    Status.ok (by decide) (by decide) (by decide) (by decide)
  exact ⟨h.1, h.2.1, h.2.2.1, h.2.2.2⟩

/-- C1 counterexample: a reachable run (window size 2: three puts rotate
once, then the background flush fails and `RecordBackgroundError` latches
`IOError("flush failed")`), after which a further `put` still returns Ok —
the live write path never consults `bg_error_` — contradicting the claim
that every subsequent write surfaces the latched error. -/
theorem dlsm_C1_counterexample :
    ((applyOps 2 (openState 2)
        [Op.write (BatchOp.put "a" "1"), Op.write (BatchOp.put "b" "2"),
          Op.write (BatchOp.put "c" "3"),
          Op.flush (Status.ioError "flush failed") false Status.ok]).getD
      (openState 2)).bg_error = Status.ioError "flush failed" ∧
    (dbWrite 2 ((applyOps 2 (openState 2)
        [Op.write (BatchOp.put "a" "1"), Op.write (BatchOp.put "b" "2"),
          Op.write (BatchOp.put "c" "3"),
          Op.flush (Status.ioError "flush failed") false Status.ok]).getD
      (openState 2)) (BatchOp.put "d" "4")).map Prod.snd
      = some Status.ok ∧
    Status.ioError "flush failed" ≠ Status.ok := by
  decide

/-- C1 (amended): `RecordBackgroundError` latches the first non-OK status
(later statuses do not replace it) and, once latched, the background
machinery refuses further work: `MaybeScheduleCompaction` schedules
nothing and `BackgroundCall` returns without touching the state.  In any
reachable latched state the immutable table is still parked (the only
latch site, a failed flush, keeps it), so `PickupTableToWrite` never
installs a new MemTable there: whenever it returns, the state is
unchanged.  But the live write path does not consult `bg_error_`: every
write that completes still returns Ok, whatever the latched error. -/
theorem dlsm_C1_amended (M : Nat) (ops : List Op) (st st' : DBState)
    (e : Status) (op : BatchOp) (s : Status) (b2 : Status) (sh : Bool)
    (a2 : Status) (seq : Nat) :
    ((recordBackgroundError st e).bg_error
      = if st.bg_error.isOK then e else st.bg_error) ∧
    (st.bg_error.isOK = false → maybeScheduleCompaction st = false) ∧
    (st.bg_error.isOK = false → backgroundCall st b2 sh a2 = some st) ∧
    (dbWrite M st op = some (st', s) → s = Status.ok) ∧
    (1 ≤ M → applyOps M (openState M) ops = some st →
      st.bg_error.isOK = false →
      st.imm ≠ none ∧
      ∀ p, pickupTableToWrite M st seq = some p → p.1 = st) := by
  refine ⟨?_, ?_, ?_, ?_, ?_⟩
  · unfold recordBackgroundError
    by_cases hok : st.bg_error.isOK
    · rw [if_pos hok, if_pos hok]
    · rw [if_neg hok, if_neg hok]
  · intro herr
    unfold maybeScheduleCompaction
    by_cases hsd : st.shutting_down
    · rw [if_pos hsd]
    · rw [if_neg hsd, if_pos (by simp [herr])]
  · intro herr
    unfold backgroundCall
    by_cases hsd : st.shutting_down
    · rw [if_pos hsd]
    · rw [if_neg hsd, if_pos (by simp [herr])]
  · intro h
    unfold dbWrite assignSequenceNumbers at h
    simp only at h
    cases hp : pickupTableToWrite M { st with nextSeq := st.nextSeq + 1 }
        st.nextSeq with
    | none => rw [hp] at h; cases h
    | some pr =>
        rw [hp] at h
        simp only [Option.some.injEq, Prod.mk.injEq] at h
        exact h.2.symm
  · intro hM hrun herr
    obtain ⟨hInv, _⟩ := run_sound M ops st hM hrun
    have him : st.imm ≠ none := hInv.err_imm herr
    refine ⟨him, ?_⟩
    intro p hp
    unfold pickupTableToWrite at hp
    by_cases hgt : seq > st.mem.largest_seq_supposed
    · rw [if_pos hgt] at hp
      cases hi : st.imm with
      | none => exact absurd hi him
      | some im => rw [hi] at hp; simp only at hp; cases hp
    · rw [if_neg hgt] at hp
      by_cases hfs : st.mem.first_seq ≤ seq
      · rw [if_pos hfs] at hp
        simp only [Option.some.injEq] at hp
        rw [← hp]
      · rw [if_neg hfs] at hp
        cases hi : st.imm with
        | none => rw [hi] at hp; simp only at hp; cases hp
        | some im =>
            rw [hi] at hp
            simp only at hp
            by_cases hw : im.first_seq ≤ seq ∧ seq ≤ im.largest_seq_supposed
            · rw [if_pos hw] at hp
              simp only [Option.some.injEq] at hp
              rw [← hp]
            · rw [if_neg hw] at hp; cases hp

/-- C1 amended witness: after a reachable failed flush (window size 2:
three puts rotate once, then the background flush fails), scheduling and
`BackgroundCall` are refused, a completing write still returns Ok, the
immutable table is still parked, and `PickupTableToWrite` hands back the
state unchanged. -/
theorem dlsm_C1_amended_witness :
    maybeScheduleCompaction ((applyOps 2 (openState 2)
        [Op.write (BatchOp.put "a" "1"), Op.write (BatchOp.put "b" "2"),
          Op.write (BatchOp.put "c" "3"),
          Op.flush (Status.ioError "flush failed") false Status.ok]).getD
      (openState 2)) = false ∧
    backgroundCall ((applyOps 2 (openState 2)
        [Op.write (BatchOp.put "a" "1"), Op.write (BatchOp.put "b" "2"),
          Op.write (BatchOp.put "c" "3"),
          Op.flush (Status.ioError "flush failed") false Status.ok]).getD
      (openState 2)) Status.ok false Status.ok
      = some ((applyOps 2 (openState 2)
        [Op.write (BatchOp.put "a" "1"), Op.write (BatchOp.put "b" "2"),
          Op.write (BatchOp.put "c" "3"),
          Op.flush (Status.ioError "flush failed") false Status.ok]).getD
      (openState 2)) ∧
    ((dbWrite 2 ((applyOps 2 (openState 2)
        [Op.write (BatchOp.put "a" "1"), Op.write (BatchOp.put "b" "2"),
          Op.write (BatchOp.put "c" "3"),
          Op.flush (Status.ioError "flush failed") false Status.ok]).getD
      (openState 2)) (BatchOp.put "d" "4")).getD
        (openState 2, Status.ok)).2 = Status.ok ∧
    ((applyOps 2 (openState 2)
        [Op.write (BatchOp.put "a" "1"), Op.write (BatchOp.put "b" "2"),
          Op.write (BatchOp.put "c" "3"),
          Op.flush (Status.ioError "flush failed") false Status.ok]).getD
      (openState 2)).imm ≠ none ∧
    ((pickupTableToWrite 2 ((applyOps 2 (openState 2)
        [Op.write (BatchOp.put "a" "1"), Op.write (BatchOp.put "b" "2"),
          Op.write (BatchOp.put "c" "3"),
          Op.flush (Status.ioError "flush failed") false Status.ok]).getD
      (openState 2)) 3).getD (openState 2, TableRef.toImm)).1
      = ((applyOps 2 (openState 2)
        [Op.write (BatchOp.put "a" "1"), Op.write (BatchOp.put "b" "2"),
          Op.write (BatchOp.put "c" "3"),
          Op.flush (Status.ioError "flush failed") false Status.ok]).getD
      (openState 2)) := by
  have h := dlsm_C1_amended 2
    [Op.write (BatchOp.put "a" "1"), Op.write (BatchOp.put "b" "2"),
      Op.write (BatchOp.put "c" "3"),
      Op.flush (Status.ioError "flush failed") false Status.ok]
    ((applyOps 2 (openState 2)
        [Op.write (BatchOp.put "a" "1"), Op.write (BatchOp.put "b" "2"),
          Op.write (BatchOp.put "c" "3"),
          Op.flush (Status.ioError "flush failed") false Status.ok]).getD
      (openState 2))
    ((dbWrite 2 ((applyOps 2 (openState 2)
        [Op.write (BatchOp.put "a" "1"), Op.write (BatchOp.put "b" "2"),
          Op.write (BatchOp.put "c" "3"),
          Op.flush (Status.ioError "flush failed") false Status.ok]).getD
      (openState 2)) (BatchOp.put "d" "4")).getD
        (openState 2, Status.ok)).1
    (Status.corruption "y") (BatchOp.put "d" "4")
    ((dbWrite 2 ((applyOps 2 (openState 2)
        [Op.write (BatchOp.put "a" "1"), Op.write (BatchOp.put "b" "2"),
          Op.write (BatchOp.put "c" "3"),
          Op.flush (Status.ioError "flush failed") false Status.ok]).getD
      (openState 2)) (BatchOp.put "d" "4")).getD
        (openState 2, Status.ok)).2
    Status.ok false Status.ok 3
  have h5 := h.2.2.2.2 (by decide) (by decide) (by decide)
  exact ⟨h.2.1 (by decide), h.2.2.1 (by decide), h.2.2.2.1 (by decide),
    h5.1,
    h5.2 ((pickupTableToWrite 2 ((applyOps 2 (openState 2)
        [Op.write (BatchOp.put "a" "1"), Op.write (BatchOp.put "b" "2"),
          Op.write (BatchOp.put "c" "3"),
          Op.flush (Status.ioError "flush failed") false Status.ok]).getD
      (openState 2)) 3).getD (openState 2, TableRef.toImm)) (by decide)⟩

/-- Lemma: the `static_cast<int>` narrowing is the identity below `2^31`. -/
theorem toInt32_small (v : Nat) (hv : v < 2147483648) :
    toInt32 v = (v : Int) := by
  simp only [toInt32, Nat.mod_eq_of_lt (show v < 4294967296 by omega),
    if_pos hv]

/-- Lemma: `ClipToRange` at a `size_t` field, restricted to inputs below
`2^31` where the `static_cast<int>` narrowing is the identity: the result
lies in `[lo, hi]`, in-range values are unchanged and out-of-range values
move to the nearest bound. -/
theorem clipToRange_small_spec (v : Nat) (lo hi : Int) (h0 : 0 ≤ lo)
    (hlohi : lo ≤ hi) (hhi : hi < 2147483648) (hv : v < 2147483648) :
    lo.toNat ≤ clipToRange v lo hi ∧ clipToRange v lo hi ≤ hi.toNat ∧
    (lo.toNat ≤ v → v ≤ hi.toNat → clipToRange v lo hi = v) ∧
    (v < lo.toNat → clipToRange v lo hi = lo.toNat) ∧
    (hi.toNat < v → clipToRange v lo hi = hi.toNat) := by
  have hvi := toInt32_small v hv
  have hhii := toInt32_small hi.toNat (by omega)
  simp only [clipToRange]
  rw [hvi]
  by_cases h1 : (v : Int) > hi
  · rw [if_pos h1, hhii, if_neg (by omega)]
    refine ⟨?_, ?_, ?_, ?_, ?_⟩ <;> omega
  · rw [if_neg h1, hvi]
    by_cases h2 : (v : Int) < lo
    · rw [if_pos h2]
      refine ⟨?_, ?_, ?_, ?_, ?_⟩ <;> omega
    · rw [if_neg h2]
      refine ⟨?_, ?_, ?_, ?_, ?_⟩ <;> omega

/-- Lemma: `ClipToRange` at the `int`-typed field. -/
theorem clipToRangeInt_spec (v lo hi : Int) (hlohi : lo ≤ hi) :
    lo ≤ clipToRangeInt v lo hi ∧ clipToRangeInt v lo hi ≤ hi ∧
    (lo ≤ v → v ≤ hi → clipToRangeInt v lo hi = v) ∧
    (v < lo → clipToRangeInt v lo hi = lo) ∧
    (hi < v → clipToRangeInt v lo hi = hi) := by
  simp only [clipToRangeInt]
  split_ifs <;> omega

/-- C8 counterexample: `ClipToRange`'s bounds are `int` literals, so its
comparisons see `static_cast<int>(*ptr)`.  A 64-bit `write_buffer_size` of
`2^31` narrows to `INT_MIN`, which is below the minimum, so the option is
clamped to 64 KiB — not the nearest bound 1 GiB; and a `write_buffer_size`
of `2^32 + 2^20` narrows to the in-range `2^20`, so it is left unchanged and
the sanitized option lies outside `[64 KiB, 1 GiB]` altogether. -/
theorem dlsm_C8_counterexample :
    (sanitizeOptions
        (Options.mk 500 2147483648 1048576 4096)).write_buffer_size
      = 65536 ∧
    (1073741824 : Nat) < 2147483648 ∧ (65536 : Nat) ≠ 1073741824 ∧
    (sanitizeOptions
        (Options.mk 500 4296015872 1048576 4096)).write_buffer_size
      = 4296015872 ∧
    ¬ (4296015872 ≤ (1073741824 : Nat)) := by
  refine ⟨by decide, by decide, by decide, by decide, by decide⟩

/-- C8 amended: option values below `2^31` — where the `static_cast<int>`
inside `ClipToRange` does not change the value — are sanitized into the
claimed ranges with nearest-bound clamping: `write_buffer_size` into
`[64KiB, 1GiB]`, `max_file_size` into `[1MiB, 1GiB]`, `block_size` into
`[1KiB, 4MiB]`, and (with no restriction, the field being `int` already)
`max_open_files` into `[74, 50000]`; in-range inputs are unchanged,
out-of-range inputs move to the nearest bound. -/
theorem dlsm_C8_amended (o : Options)
    (hwb : o.write_buffer_size < 2147483648)
    (hmf : o.max_file_size < 2147483648)
    (hbs : o.block_size < 2147483648) :
    (74 ≤ (sanitizeOptions o).max_open_files ∧
      (sanitizeOptions o).max_open_files ≤ 50000 ∧
      (74 ≤ o.max_open_files → o.max_open_files ≤ 50000 →
        (sanitizeOptions o).max_open_files = o.max_open_files) ∧
      (o.max_open_files < 74 → (sanitizeOptions o).max_open_files = 74) ∧
      (50000 < o.max_open_files →
        (sanitizeOptions o).max_open_files = 50000)) ∧
    (65536 ≤ (sanitizeOptions o).write_buffer_size ∧
      (sanitizeOptions o).write_buffer_size ≤ 1073741824 ∧
      (65536 ≤ o.write_buffer_size → o.write_buffer_size ≤ 1073741824 →
        (sanitizeOptions o).write_buffer_size = o.write_buffer_size) ∧
      (o.write_buffer_size < 65536 →
        (sanitizeOptions o).write_buffer_size = 65536) ∧
      (1073741824 < o.write_buffer_size →
        (sanitizeOptions o).write_buffer_size = 1073741824)) ∧
    (1048576 ≤ (sanitizeOptions o).max_file_size ∧
      (sanitizeOptions o).max_file_size ≤ 1073741824 ∧
      (1048576 ≤ o.max_file_size → o.max_file_size ≤ 1073741824 →
        (sanitizeOptions o).max_file_size = o.max_file_size) ∧
      (o.max_file_size < 1048576 →
        (sanitizeOptions o).max_file_size = 1048576) ∧
      (1073741824 < o.max_file_size →
        (sanitizeOptions o).max_file_size = 1073741824)) ∧
    (1024 ≤ (sanitizeOptions o).block_size ∧
      (sanitizeOptions o).block_size ≤ 4194304 ∧
      (1024 ≤ o.block_size → o.block_size ≤ 4194304 →
        (sanitizeOptions o).block_size = o.block_size) ∧
      (o.block_size < 1024 → (sanitizeOptions o).block_size = 1024) ∧
      (4194304 < o.block_size →
        (sanitizeOptions o).block_size = 4194304)) := by
  have h0 := clipToRangeInt_spec o.max_open_files
    (64 + kNumNonTableCacheFiles) 50000 (by decide)
  have h1 := clipToRange_small_spec o.write_buffer_size
    (64 <<< 10) (1 <<< 30) (by decide) (by decide) (by decide) hwb
  have h2 := clipToRange_small_spec o.max_file_size
    (1 <<< 20) (1 <<< 30) (by decide) (by decide) (by decide) hmf
  have h3 := clipToRange_small_spec o.block_size
    (1 <<< 10) (4 <<< 20) (by decide) (by decide) (by decide) hbs
  have e1 : ((64 <<< 10 : Int)).toNat = 65536 := by decide
  have e2 : ((1 <<< 30 : Int)).toNat = 1073741824 := by decide
  have e3 : ((1 <<< 20 : Int)).toNat = 1048576 := by decide
  have e4 : ((1 <<< 10 : Int)).toNat = 1024 := by decide
  have e5 : ((4 <<< 20 : Int)).toNat = 4194304 := by decide
  have e6 : (64 + kNumNonTableCacheFiles : Int) = 74 := by decide
  rw [e1, e2] at h1
  rw [e3, e2] at h2
  rw [e4, e5] at h3
  rw [e6] at h0
  simp only [sanitizeOptions]
  exact ⟨h0, h1, h2, h3⟩

/-- C8 amended witness: all-zero options (each below `2^31`) are pulled up
to the minimum bounds. -/
theorem dlsm_C8_amended_witness :
    (0 : Nat) < 2147483648 ∧
    (sanitizeOptions (Options.mk 0 0 0 0)).max_open_files = 74 ∧
    (sanitizeOptions (Options.mk 0 0 0 0)).write_buffer_size = 65536 ∧
    (sanitizeOptions (Options.mk 0 0 0 0)).max_file_size = 1048576 ∧
    (sanitizeOptions (Options.mk 0 0 0 0)).block_size = 1024 := by
  have h := dlsm_C8_amended (Options.mk 0 0 0 0)
    (by decide) (by decide) (by decide)
  exact ⟨by decide, h.1.2.2.2.1 (by decide), h.2.1.2.2.2.1 (by decide),
    h.2.2.1.2.2.2.1 (by decide), h.2.2.2.2.2.2.1 (by decide)⟩

/-- C9: after a successful fresh open (no recovered memtable), the handle
holds a MemTable (the pointer is non-null) whose window is exactly
`[0, MEMTABLE_SEQ_SIZE - 1]` — it begins at sequence 0, the reserved
"no snapshot" sentinel. -/
theorem dlsm_C9_open_fresh_window (M : Nat) (hM : 1 ≤ M) :
    dbOpenFresh M Status.ok = some (openState M) ∧
    (openState M).mem.first_seq = 0 ∧
    (openState M).mem.largest_seq_supposed = M - 1 ∧
    (openState M).mem.windowSize = M := by
  refine ⟨rfl, rfl, rfl, ?_⟩
  simp only [openState, MemTable.windowSize, MemTable.fresh,
    MemTable.setFirstSeq, MemTable.setLargestSeq]
  omega

/-- C9 witness: fresh open with the window size 64. -/
theorem dlsm_C9_open_fresh_window_witness :
    dbOpenFresh 64 Status.ok = some (openState 64) ∧
    (openState 64).mem.first_seq = 0 ∧
    (openState 64).mem.largest_seq_supposed = 63 ∧
    (openState 64).mem.windowSize = 64 :=
  dlsm_C9_open_fresh_window 64 (by decide)

/-- C10: block contents shorter than four bytes, or whose trailing restart
count exceeds `(size - 4) / 4`, make the constructor mark the block empty
(`size_ = 0`) and `NewIterator` return the error iterator carrying
`Status::Corruption("bad block contents")`; a well-formed block with zero
restarts yields the empty iterator. -/
theorem dlsm_C10_block_bad_contents (contents : List Nat) :
    ((contents.length < 4 ∨
        (contents.length - 4) / 4 < numRestartsOf contents) →
      (blockCtor contents).size_ = 0 ∧
      blockNewIterator (blockCtor contents) =
        BlockIter.errorIterator (Status.corruption "bad block contents")) ∧
    (4 ≤ contents.length → numRestartsOf contents = 0 →
      blockNewIterator (blockCtor contents) = BlockIter.emptyIterator) := by
  constructor
  · intro hbad
    have hz : (blockCtor contents).size_ = 0 := by
      unfold blockCtor
      by_cases h1 : contents.length < 4
      · rw [if_pos h1]
      · rcases hbad with h2 | h2
        · exact absurd h2 h1
        · rw [if_neg h1]
          simp only
          rw [if_pos h2]
    refine ⟨hz, ?_⟩
    unfold blockNewIterator
    rw [if_pos (by omega)]
  · intro hlen hzero
    have hc : blockCtor contents =
        Block.mk contents contents.length
          (contents.length - (1 + numRestartsOf contents) * 4) := by
      unfold blockCtor
      rw [if_neg (not_lt.mpr hlen)]
      simp only
      rw [if_neg (by omega)]
    unfold blockNewIterator
    rw [hc]
    dsimp only
    rw [if_neg (by omega), if_pos hzero]

/-- C10 witness: a one-byte block is rejected with the corruption error;
a four-byte block holding a zero restart count is empty. -/
theorem dlsm_C10_block_bad_contents_witness :
    ((blockCtor [7]).size_ = 0 ∧
      blockNewIterator (blockCtor [7]) =
        BlockIter.errorIterator (Status.corruption "bad block contents")) ∧
    blockNewIterator (blockCtor [0, 0, 0, 0]) = BlockIter.emptyIterator := by
  constructor
  · exact (dlsm_C10_block_bad_contents [7]).1 (Or.inl (by decide))
  · exact (dlsm_C10_block_bad_contents [0, 0, 0, 0]).2 (by decide) (by decide)

end DLSM
